import Mathlib

/-!
# Backtor: backup coordinator, tagging transaction and retention task

A shallow embedding of `backtor/task-backup.go`, `backtor/task-retention.go`
and `backtor/tasks.go`.

The Go code works on two kinds of outside world:

* the relational store (tables `backup_spec` and `materialized_backup`,
  created in `backtor/db.go`), whose access functions live in files that are
  not part of the sources at hand;
* the workflow engine (Conductor), reached through `getWorkflowInstance`,
  `launchCreateBackupWorkflow` and `launchRemoveBackupWorkflow`.

The store is an explicit `State` that every function takes and returns.  The
answers of the workflow engine, the failures of store calls and the bucket
queries of the store are parameters, collected in `Env`.  Every call to the
outside world is appended to `State.trace`; the answer an `Env` gives may
depend on the number of calls made so far, so the same question may get a
different answer later in a run.

A Go `error` is an `Option String` (`none` is `nil`); a Go pointer that may be
`nil` is an `Option`; a Go `(value, error)` result is a pair.  Log lines
neither read nor change the store or the workflow engine and are left out, and
so are the Prometheus counters and gauges, with one exception: the counter
call at `task-retention.go` line 87 passes one label value to a counter of two
labels and panics, which ends the delete loop of `RunRetentionTask` (see
`deleteElected`).  The text of an error message is shortened to its fixed part.
-/

namespace Backtor

/-! ## Data model -/

/-- Workflow instance as `getWorkflowInstance` returns it (fields read by the
callers: `workflowID`, `status`, `dataID`, `dataSizeMB`, `startTime`,
`endTime`).  `dataSizeMB` is a `*float64` in Go; it is only compared with zero,
which is exact, so a rational stands for it.  Times are instants on an integer
time line. -/
structure WorkflowInstance where
  workflowID : String
  status : String
  dataID : Option String
  dataSizeMB : Option ℚ
  startTime : Int
  endTime : Int
deriving DecidableEq

/-- Row of table `backup_spec` (columns of `backtor/db.go`) with the fields the
Go code reads from a `BackupSpec` value. -/
structure BackupSpec where
  Name : String
  Enabled : Int
  RunningCreateWorkflowID : Option String
  BackupCronString : Option String
  FromDate : Option Int
  ToDate : Option Int
  TimeoutSeconds : Int
  WorkerConfig : Option String
  RetentionMinutely : String
  RetentionHourly : String
  RetentionDaily : String
  RetentionWeekly : String
  RetentionMonthly : String
  RetentionYearly : String
deriving DecidableEq

/-- Row of table `materialized_backup` (columns of `backtor/db.go`). -/
structure MaterializedBackup where
  ID : String
  BackupName : String
  DataID : Option String
  Status : String
  RunningDeleteWorkflowID : Option String
  StartTime : Int
  EndTime : Int
  SizeMB : Option ℚ
  Minutely : Int
  Hourly : Int
  Daily : Int
  Weekly : Int
  Monthly : Int
  Yearly : Int
  Reference : Int
deriving DecidableEq

/-- The Go zero value `BackupSpec{}`. -/
def BackupSpec.zero : BackupSpec :=
  { Name := "", Enabled := 0, RunningCreateWorkflowID := none, BackupCronString := none,
    FromDate := none, ToDate := none, TimeoutSeconds := 0, WorkerConfig := none,
    RetentionMinutely := "", RetentionHourly := "", RetentionDaily := "",
    RetentionWeekly := "", RetentionMonthly := "", RetentionYearly := "" }

/-- The Go zero value `MaterializedBackup{}`. -/
def MaterializedBackup.zero : MaterializedBackup :=
  { ID := "", BackupName := "", DataID := none, Status := "", RunningDeleteWorkflowID := none,
    StartTime := 0, EndTime := 0, SizeMB := none, Minutely := 0, Hourly := 0, Daily := 0,
    Weekly := 0, Monthly := 0, Yearly := 0, Reference := 0 }

/-! ## Calls to the outside world -/

/-- One call made by the Go code to the store, the workflow engine or a mutex,
with the arguments it was made with. -/
inductive Call where
  | getBackupSpec (name : String)
  | updateBackupSpecRunningCreateWorkflowID (name : String) (workflowID : Option String)
  | getWorkflowInstance (workflowID : String)
  | launchCreateBackupWorkflow (name : String)
  | launchRemoveBackupWorkflow (name : String) (dataID : Option String) (timeoutSeconds : Int)
      (workerConfig : Option String)
  | createMaterializedBackup (id : String) (name : String) (dataID : Option String)
      (status : String) (startTime : Int) (endTime : Int) (sizeMB : Option ℚ)
  | getMaterializedBackup (id : String)
  | getMaterializedBackups (name : String) (limit : Nat) (afterID : String) (status : String)
      (ascending : Bool)
  | setStatusMaterializedBackup (id : String) (status : String) (workflowID : Option String)
  | getExclusiveTagAvailableMaterializedBackups (name : String) (tag : String) (ret : Int)
      (limit : Int)
  | dbBegin
  | txRollback
  | txCommit
  | clearTagsAndReferenceMaterializedBackup
  | markReferencesMinutelyMaterializedBackup (a1 a2 : String)
  | markTagMaterializedBackup (a1 a2 a3 a4 a5 a6 : String)
  | setAllTagsMaterializedBackup (id : String)
  | mutexLock (mutex : Nat)
  | mutexUnlock (mutex : Nat)
  | listBackupSpecs (enabled : Option Int)
deriving DecidableEq

/-- A call together with its outcome: `ok = false` when it returned a non-nil
error. -/
structure Event where
  call : Call
  ok : Bool
deriving DecidableEq

/-- The store contents, the map `retentionLocks` (backup name to mutex, a
mutex being identified by a number) and the calls made so far. -/
structure State where
  specs : List BackupSpec
  backups : List MaterializedBackup
  retentionLocks : List (String × Nat)
  trace : List Event

/-- Append a call and its outcome to the trace. -/
def State.log (st : State) (c : Call) (ok : Bool) : State :=
  { st with trace := st.trace ++ [⟨c, ok⟩] }

/-- Number of calls made so far; the index at which `Env` is asked. -/
def State.tick (st : State) : Nat := st.trace.length

/-- The outside world.  `dbErr t` is the error (if any) of a store call issued
as call number `t`.  The workflow-engine functions return what the Go
functions of the same name return, a value and an error.  The bucket queries
of the store (`clearTagsAndReference...`, `markReferencesMinutely...`,
`markTag...`, `getExclusiveTagAvailable...`) are arbitrary functions of their
arguments and of the table they read. -/
structure Env where
  dbErr : Nat → Option String
  getWorkflowInstance : Nat → String → WorkflowInstance × Option String
  launchCreateBackupWorkflow : Nat → String → String × Option String
  launchRemoveBackupWorkflow :
    Nat → String → Option String → Int → Option String → String × Option String
  clearTagsAndReference : List MaterializedBackup → List MaterializedBackup
  markReferencesMinutely : String → String → List MaterializedBackup → List MaterializedBackup
  markTag : String → String → String → String → String → String →
    List MaterializedBackup → List MaterializedBackup
  getExclusiveTagAvailable : String → String → Int → Int →
    List MaterializedBackup → List MaterializedBackup

/-! ## Store access (files absent from the sources) -/

/-- Modelled from the spec: `getBackupSpec` is declared in a file that is not
among the sources.  Spec 4.1: `getSpec(name) → Spec | NotFound`.  On an error
the zero `BackupSpec` is returned with the error. -/
def getBackupSpec (env : Env) (st : State) (name : String) :
    State × BackupSpec × Option String :=
  match env.dbErr st.tick with
  | some e => (st.log (.getBackupSpec name) false, BackupSpec.zero, some e)
  | none =>
    match st.specs.find? (fun bs => bs.Name = name) with
    | some bs => (st.log (.getBackupSpec name) true, bs, none)
    | none => (st.log (.getBackupSpec name) false, BackupSpec.zero, some "backup spec not found")

/-- The row update of `updateBackupSpecRunningCreateWorkflowID`: the spec called
`name` gets the workflow id. -/
def setRunningCreateRows (rows : List BackupSpec) (name : String) (workflowID : Option String) :
    List BackupSpec :=
  rows.map (fun bs =>
    if bs.Name = name then { bs with RunningCreateWorkflowID := workflowID } else bs)

/-- Modelled from the spec: `updateBackupSpecRunningCreateWorkflowID` is
declared in a file that is not among the sources.  Spec 4.1:
`updateSpecRunningCreateWorkflow(name, id | null)`, atomic: it either fails and
changes nothing or sets the field of the spec called `name`. -/
def updateBackupSpecRunningCreateWorkflowID (env : Env) (st : State) (name : String)
    (workflowID : Option String) : State × Option String :=
  match env.dbErr st.tick with
  | some e => (st.log (.updateBackupSpecRunningCreateWorkflowID name workflowID) false, some e)
  | none =>
    (State.log { st with specs := setRunningCreateRows st.specs name workflowID }
        (.updateBackupSpecRunningCreateWorkflowID name workflowID) true, none)

/-- The workflow engine call `getWorkflowInstance` (its answer is a parameter). -/
def getWorkflowInstance (env : Env) (st : State) (workflowID : String) :
    State × WorkflowInstance × Option String :=
  let r := env.getWorkflowInstance st.tick workflowID
  (st.log (.getWorkflowInstance workflowID) r.2.isNone, r.1, r.2)

/-- The workflow engine call `launchCreateBackupWorkflow` (its answer is a
parameter). -/
def launchCreateBackupWorkflow (env : Env) (st : State) (name : String) :
    State × String × Option String :=
  let r := env.launchCreateBackupWorkflow st.tick name
  (st.log (.launchCreateBackupWorkflow name) r.2.isNone, r.1, r.2)

/-- Modelled from the spec: `createMaterializedBackup` is declared in a file
that is not among the sources.  Spec 4.1: `createMaterialized(id, backupName,
dataID, status, startTime, endTime, sizeMB)`, fails if `id` exists.  The new row
has the column defaults of `backtor/db.go` (all tag flags and `reference` 0, no
delete workflow). -/
def createMaterializedBackup (env : Env) (st : State) (id name : String)
    (dataID : Option String) (status : String) (startTime endTime : Int) (sizeMB : Option ℚ) :
    State × Option String :=
  match env.dbErr st.tick with
  | some e =>
    (st.log (.createMaterializedBackup id name dataID status startTime endTime sizeMB) false,
      some e)
  | none =>
    if st.backups.any (fun mb => mb.ID = id) then
      (st.log (.createMaterializedBackup id name dataID status startTime endTime sizeMB) false,
        some "materialized backup id exists")
    else
      (State.log { st with backups := st.backups ++
          [{ ID := id, BackupName := name, DataID := dataID, Status := status,
             RunningDeleteWorkflowID := none, StartTime := startTime, EndTime := endTime,
             SizeMB := sizeMB, Minutely := 0, Hourly := 0, Daily := 0, Weekly := 0,
             Monthly := 0, Yearly := 0, Reference := 0 }] }
        (.createMaterializedBackup id name dataID status startTime endTime sizeMB) true, none)

/-- Modelled from the spec: the query behind `getMaterializedBackups`.  Spec
4.1: `listMaterialized(backupName, limit, afterID?, status?, ascending)`,
ordered by `endTime` descending unless `ascending`.  An empty `status` selects
every status.  The Go code always passes the empty `afterID`, so no cursor is
modelled. -/
def listMaterialized (rows : List MaterializedBackup) (name : String) (limit : Nat)
    (status : String) (ascending : Bool) : List MaterializedBackup :=
  let sel := rows.filter (fun mb => mb.BackupName = name ∧ (status = "" ∨ mb.Status = status))
  let sorted :=
    if ascending then sel.insertionSort (fun a b => a.EndTime ≤ b.EndTime)
    else sel.insertionSort (fun a b => b.EndTime ≤ a.EndTime)
  sorted.take limit

/-- Modelled from the spec: `getMaterializedBackups` is declared in a file that
is not among the sources; see `listMaterialized`. -/
def getMaterializedBackups (env : Env) (st : State) (name : String) (limit : Nat)
    (afterID : String) (status : String) (ascending : Bool) :
    State × List MaterializedBackup × Option String :=
  match env.dbErr st.tick with
  | some e => (st.log (.getMaterializedBackups name limit afterID status ascending) false, [], some e)
  | none =>
    (st.log (.getMaterializedBackups name limit afterID status ascending) true,
      listMaterialized st.backups name limit status ascending, none)

/-- Modelled from the spec: `getMaterializedBackup` is declared in a file that
is not among the sources.  Spec 4.1: `getMaterialized(id) → MB | NotFound`. -/
def getMaterializedBackup (env : Env) (st : State) (id : String) :
    State × MaterializedBackup × Option String :=
  match env.dbErr st.tick with
  | some e => (st.log (.getMaterializedBackup id) false, MaterializedBackup.zero, some e)
  | none =>
    match st.backups.find? (fun mb => mb.ID = id) with
    | some mb => (st.log (.getMaterializedBackup id) true, mb, none)
    | none =>
      (st.log (.getMaterializedBackup id) false, MaterializedBackup.zero,
        some "materialized backup not found")

/-- The row update of `setStatusMaterializedBackup`: the row with the given id
gets the status and the delete workflow id. -/
def setStatusRows (rows : List MaterializedBackup) (id status : String)
    (workflowID : Option String) : List MaterializedBackup :=
  rows.map (fun mb =>
    if mb.ID = id then { mb with Status := status, RunningDeleteWorkflowID := workflowID }
    else mb)

/-- Modelled from the spec: `setStatusMaterializedBackup` is declared in a file
that is not among the sources.  Spec 4.1: `setMaterializedStatus(id, status,
runningDeleteWorkflowID?)`.  Its first result is never read by the callers and
is left out. -/
def setStatusMaterializedBackup (env : Env) (st : State) (id status : String)
    (workflowID : Option String) : State × Option String :=
  match env.dbErr st.tick with
  | some e => (st.log (.setStatusMaterializedBackup id status workflowID) false, some e)
  | none =>
    (State.log { st with backups := setStatusRows st.backups id status workflowID }
      (.setStatusMaterializedBackup id status workflowID) true, none)

/-- The workflow engine call `launchRemoveBackupWorkflow` (its answer is a
parameter). -/
def launchRemoveBackupWorkflow (env : Env) (st : State) (name : String)
    (dataID : Option String) (timeoutSeconds : Int) (workerConfig : Option String) :
    State × String × Option String :=
  let r := env.launchRemoveBackupWorkflow st.tick name dataID timeoutSeconds workerConfig
  (st.log (.launchRemoveBackupWorkflow name dataID timeoutSeconds workerConfig) r.2.isNone,
    r.1, r.2)

/-! ### The tagging transaction

`db.Begin()` gives a transaction that works on its own view of table
`materialized_backup`; `Commit` makes the view the table, `Rollback` drops
it. -/

/-- `db.Begin()`: the view of the new transaction is the current table. -/
def dbBegin (env : Env) (st : State) : State × List MaterializedBackup × Option String :=
  match env.dbErr st.tick with
  | some e => (st.log .dbBegin false, [], some e)
  | none => (st.log .dbBegin true, st.backups, none)

/-- `tx.Rollback()`; the Go code never reads its result.  On an open transaction
(`done = false`) it ends the transaction.  Once `tx.Commit()` has been called,
`database/sql` has marked the transaction as done, whatever `Commit` returned:
a later `Rollback` (`done = true`) returns `sql.ErrTxDone` and does not reach
the store. -/
def txRollback (st : State) (done : Bool) : State := st.log .txRollback (!done)

/-- `tx.Commit()`: on success the view of the transaction becomes the table. -/
def txCommit (env : Env) (st : State) (view : List MaterializedBackup) : State × Option String :=
  match env.dbErr st.tick with
  | some e => (st.log .txCommit false, some e)
  | none => (State.log { st with backups := view } .txCommit true, none)

/-- A statement executed inside the transaction: it fails, leaving the view
as it is, or applies `f` to the view. -/
def txExec (env : Env) (st : State) (c : Call)
    (f : List MaterializedBackup → List MaterializedBackup) (view : List MaterializedBackup) :
    State × List MaterializedBackup × Option String :=
  match env.dbErr st.tick with
  | some e => (st.log c false, view, some e)
  | none => (st.log c true, f view, none)

/-- `clearTagsAndReferenceMaterializedBackup(tx)`. -/
def clearTagsAndReferenceMaterializedBackup (env : Env) (st : State)
    (view : List MaterializedBackup) : State × List MaterializedBackup × Option String :=
  txExec env st .clearTagsAndReferenceMaterializedBackup env.clearTagsAndReference view

/-- `markReferencesMinutelyMaterializedBackup(tx, a1, a2)`. -/
def markReferencesMinutelyMaterializedBackup (env : Env) (st : State)
    (view : List MaterializedBackup) (a1 a2 : String) :
    State × List MaterializedBackup × Option String :=
  txExec env st (.markReferencesMinutelyMaterializedBackup a1 a2)
    (env.markReferencesMinutely a1 a2) view

/-- `markTagMaterializedBackup(tx, a1, ..., a6)`: six string arguments, in the
order in which the callers pass them. -/
def markTagMaterializedBackup (env : Env) (st : State) (view : List MaterializedBackup)
    (a1 a2 a3 a4 a5 a6 : String) : State × List MaterializedBackup × Option String :=
  txExec env st (.markTagMaterializedBackup a1 a2 a3 a4 a5 a6) (env.markTag a1 a2 a3 a4 a5 a6) view

/-- The row update of `setAllTagsMaterializedBackup`. -/
def setAllTagsRows (id : String) (rows : List MaterializedBackup) : List MaterializedBackup :=
  rows.map (fun mb =>
    if mb.ID = id then
      { mb with Minutely := 1, Hourly := 1, Daily := 1, Weekly := 1, Monthly := 1, Yearly := 1 }
    else mb)

/-- Modelled from the spec: `setAllTagsMaterializedBackup` is declared in a
file that is not among the sources.  Spec 4.3 step 5: `setAllTags(id)` forces
the backup `id` to be tagged in every category (all six tag flags 1). -/
def setAllTagsMaterializedBackup (env : Env) (st : State) (view : List MaterializedBackup)
    (id : String) : State × List MaterializedBackup × Option String :=
  txExec env st (.setAllTagsMaterializedBackup id) (setAllTagsRows id) view

/-! ### Retention strings -/

/-- Split a list of characters at every `@`. -/
def splitAt : List Char → List (List Char)
  | [] => [[]]
  | c :: cs =>
    if c = '@' then [] :: splitAt cs
    else
      match splitAt cs with
      | [] => [[c]]
      | h :: t => (c :: h) :: t

/-- Modelled from the spec: the methods `MinutelyParams()` ... `YearlyParams()`
of `BackupSpec` are declared in a file that is not among the sources.  Spec 3:
a retention string has the form `COUNT@REF`; the method returns the parts,
`[COUNT, REF]`. -/
def retentionParams (s : String) : List String := (splitAt s.data).map String.mk

/-- Go index expression `params[i]` on the result of a `...Params()` method.
Out of range Go panics; that does not happen for a retention string of the form
`COUNT@REF` and is not modelled (the empty string stands for it). -/
def paramAt (params : List String) (i : Nat) : String := params.getD i ""

def BackupSpec.MinutelyParams (bs : BackupSpec) : List String := retentionParams bs.RetentionMinutely
def BackupSpec.HourlyParams (bs : BackupSpec) : List String := retentionParams bs.RetentionHourly
def BackupSpec.DailyParams (bs : BackupSpec) : List String := retentionParams bs.RetentionDaily
def BackupSpec.WeeklyParams (bs : BackupSpec) : List String := retentionParams bs.RetentionWeekly
def BackupSpec.MonthlyParams (bs : BackupSpec) : List String := retentionParams bs.RetentionMonthly
def BackupSpec.YearlyParams (bs : BackupSpec) : List String := retentionParams bs.RetentionYearly

/-! ## `task-backup.go`: `triggerNewBackup` -/

/-- Lines 106-121 of `triggerNewBackup`: launch the create workflow and store
its id in the backup spec. -/
def triggerNewBackupLaunch (env : Env) (st : State) (backupName : String) :
    State × String × Option String :=
  match launchCreateBackupWorkflow env st backupName with
  | (st1, _, some _) =>
    (st1, "", some "Couldn't invoke Conductor workflow for backup creation")
  | (st1, workflowID, none) =>
    match updateBackupSpecRunningCreateWorkflowID env st1 backupName (some workflowID) with
    | (st2, some err4) => (st2, "", some err4)
    | (st2, none) => (st2, workflowID, none)

/-- `triggerNewBackup(backupName) (workflowID string, err3 error)`. -/
def triggerNewBackup (env : Env) (st : State) (backupName : String) :
    State × String × Option String :=
  match getBackupSpec env st backupName with
  | (st1, _, some _) => (st1, "", some "Couldn't load backup spec")
  | (st1, bs, none) =>
    match bs.RunningCreateWorkflowID with
    | some id =>
      match getWorkflowInstance env st1 id with
      | (st2, wf, err) =>
        if err ≠ none ∧ wf.status ≠ "NOT_FOUND" then
          (st2, "", some "Couldn't get workflow id for checking if it is running")
        else if wf.status = "RUNNING" then
          (st2, "", some "Another backup workflow for backup is running")
        else triggerNewBackupLaunch env st2 backupName
    | none => triggerNewBackupLaunch env st1 backupName

/-! ## `task-backup.go`: `tagAllBackups` -/

/-- `tagAllBackups(backupName) error`.  The metrics counters and the log lines
are left out. -/
def tagAllBackups (env : Env) (st : State) (backupName : String) : State × Option String :=
  match getBackupSpec env st backupName with
  | (st, _, some _) => (st, some "Couldn't load backup spec")
  | (st, bs, none) =>
  match dbBegin env st with
  | (st, _, some _) => (st, some "Error begining db transaction")
  | (st, tx, none) =>
  match getMaterializedBackups env st bs.Name 1 "" "COMPLETED" false with
  | (st, _, some _) => (txRollback st false, some "Error getting last backup")
  | (st, [], none) => (txRollback st false, none)
  | (st, lastBackup :: _, none) =>
  match clearTagsAndReferenceMaterializedBackup env st tx with
  | (st, _, some _) => (txRollback st false, some "Error clearing tags")
  | (st, tx, none) =>
  match markReferencesMinutelyMaterializedBackup env st tx bs.Name
      (paramAt bs.MinutelyParams 1) with
  | (st, _, some _) => (txRollback st false, some "Error marking reference+minutely tags")
  | (st, tx, none) =>
  match markTagMaterializedBackup env st tx "hourly" "minutely" "%Y-%m-%dT%H:0:0.000" "%M"
      bs.Name (paramAt bs.HourlyParams 1) with
  | (st, _, some _) => (txRollback st false, some "Error marking hourly tags")
  | (st, tx, none) =>
  match markTagMaterializedBackup env st tx "daily" "hourly" "%Y-%m-%w-%dT0:0:0.000" "%H"
      bs.Name (paramAt bs.DailyParams 1) with
  | (st, _, some _) => (txRollback st false, some "Error marking daily tags")
  | (st, tx, none) =>
  match markTagMaterializedBackup env st tx "weekly" "daily" "%Y-%m-%W-0T0:0:0.000" "%w"
      bs.Name (paramAt bs.WeeklyParams 1) with
  | (st, _, some _) => (txRollback st false, some "Error marking weekly tags")
  | (st, tx, none) =>
  let ref := if paramAt bs.MonthlyParams 1 = "L" then "31" else paramAt bs.MonthlyParams 1
  match markTagMaterializedBackup env st tx bs.Name "monthly" "daily" "%Y-%m-0T0:0:0.000" "%d"
      ref with
  | (st, _, some _) => (txRollback st false, some "Error marking monthly tags")
  | (st, tx, none) =>
  match markTagMaterializedBackup env st tx "yearly" "monthly" "%Y-0-0T0:0:0.000" "%m"
      bs.Name (paramAt bs.YearlyParams 1) with
  | (st, _, some _) => (txRollback st false, some "Error marking yearly tags")
  | (st, tx, none) =>
  match setAllTagsMaterializedBackup env st tx lastBackup.ID with
  | (st, _, some _) => (txRollback st false, some "Error tagging last backup")
  | (st, tx, none) =>
  match txCommit env st tx with
  | (st, some _) => (txRollback st true, some "Error commiting transation")
  | (st, none) => (st, none)

/-! ## `task-backup.go`: `checkBackupWorkflow` -/

/-- The mutex `avoidRetentionLock` that `checkBackupWorkflow` locks: one global
mutex, number 0.  The mutexes of the map `retentionLocks` are numbered from 1. -/
def avoidRetentionLock : Nat := 0

/-- Lines 152-187 of `checkBackupWorkflow`, run while `avoidRetentionLock` is
held: `wf` is the workflow found in a state other than RUNNING. -/
def checkBackupWorkflowLocked (env : Env) (st : State) (backupName : String)
    (wf : WorkflowInstance) : State :=
  match updateBackupSpecRunningCreateWorkflowID env st backupName none with
  | (st, some _) => st
  | (st, none) =>
  if wf.status ≠ "COMPLETED" then st
  else if wf.dataID = none ∨ wf.dataSizeMB = none ∨ wf.dataSizeMB = some 0 then st
  else
  match createMaterializedBackup env st wf.workflowID backupName wf.dataID wf.status
      wf.startTime wf.endTime wf.dataSizeMB with
  | (st, some _) => st
  | (st, none) => (tagAllBackups env st backupName).1

/-- `checkBackupWorkflow(backupName)`.  An error of `getBackupSpec` is only
logged: the function goes on with the spec value it got.  `defer
avoidRetentionLock.Unlock()` runs at every return after the lock. -/
def checkBackupWorkflow (env : Env) (st : State) (backupName : String) : State :=
  match getBackupSpec env st backupName with
  | (st, bs, _) =>
  match bs.RunningCreateWorkflowID with
  | none => st
  | some id =>
  match getWorkflowInstance env st id with
  | (st, _, some _) => st
  | (st, wf, none) =>
  if wf.status = "RUNNING" then st
  else
    (checkBackupWorkflowLocked env (st.log (.mutexLock avoidRetentionLock) true) backupName
      wf).log (.mutexUnlock avoidRetentionLock) true

/-! ## `task-retention.go` -/

/-- `retentionLock(backupName)`: get-or-insert in the map `retentionLocks`.  A
new mutex gets the next free number. -/
def retentionLock (st : State) (backupName : String) : State × Nat :=
  match st.retentionLocks.lookup backupName with
  | some m => (st, m)
  | none =>
    ({ st with retentionLocks := st.retentionLocks ++ [(backupName, st.retentionLocks.length + 1)] },
      st.retentionLocks.length + 1)

/-- Value of a string of decimal digits; `none` when a character is not a
digit. -/
def digitsValue : List Char → Nat → Option Nat
  | [], acc => some acc
  | c :: cs, acc => if c.isDigit then digitsValue cs (acc * 10 + (c.toNat - 48)) else none

/-- Go `strconv.Atoi`: an optional sign followed by at least one decimal digit,
within the range of a 64-bit `int`; `none` is a non-nil error. -/
def Atoi (s : String) : Option Int :=
  let body : List Char → Option Nat := fun ds =>
    match ds with
    | [] => none
    | _ => digitsValue ds 0
  let signed : Option Int :=
    match s.data with
    | '-' :: ds => (body ds).map (fun n => -(n : Int))
    | '+' :: ds => (body ds).map (fun n => (n : Int))
    | ds => (body ds).map (fun n => (n : Int))
  match signed with
  | some v => if -(2 : Int) ^ 63 ≤ v ∧ v ≤ (2 : Int) ^ 63 - 1 then some v else none
  | none => none

/-- The store query `getExclusiveTagAvailableMaterializedBackups` (its answer
is a parameter). -/
def getExclusiveTagAvailableMaterializedBackups (env : Env) (st : State) (name tag : String)
    (ret limit : Int) : State × List MaterializedBackup × Option String :=
  match env.dbErr st.tick with
  | some e =>
    (st.log (.getExclusiveTagAvailableMaterializedBackups name tag ret limit) false, [], some e)
  | none =>
    (st.log (.getExclusiveTagAvailableMaterializedBackups name tag ret limit) true,
      env.getExclusiveTagAvailable name tag ret limit st.backups, none)

/-- `appendElectedForTag(backupName, tag, retentionCount, appendTo)`. -/
def appendElectedForTag (env : Env) (st : State) (backupName tag retentionCount : String)
    (appendTo : List MaterializedBackup) : State × List MaterializedBackup :=
  match Atoi retentionCount with
  | none => (st, appendTo)
  | some ret =>
    match getExclusiveTagAvailableMaterializedBackups env st backupName tag ret 30 with
    | (st, _, some _) => (st, appendTo)
    | (st, mbackups, none) => (st, appendTo ++ mbackups)

/-- `triggerBackupDelete(materializedID) error`. -/
def triggerBackupDelete (env : Env) (st : State) (materializedID : String) :
    State × Option String :=
  match getMaterializedBackup env st materializedID with
  | (st, _, some _) => (st, some "Couldn't load materized backup")
  | (st, mb, none) =>
  if mb.Status ≠ "COMPLETED" then
    (st, some "Materialized backup cannot be deleted because its status is not 'completed'")
  else if mb.RunningDeleteWorkflowID ≠ none then
    (st, some "Materialized backup cannot be deleted because it already has a runningCreateWorkflowID set")
  else
  match getBackupSpec env st mb.BackupName with
  | (st, _, some _) => (st, some "Error getting backup spec")
  | (st, bs, none) =>
  match launchRemoveBackupWorkflow env st mb.BackupName mb.DataID bs.TimeoutSeconds
      bs.WorkerConfig with
  | (st, _, some _) => (st, some "Couldn't invoke Conductor workflow for backup removal")
  | (st, workflowID, none) =>
  match setStatusMaterializedBackup env st materializedID "deleting" (some workflowID) with
  | (st, some _) => (st, some "Couldn't update status of materialized backup to 'deleting'")
  | (st, none) => (st, none)

/-- Body of the loop `for _, mb := range mbs` of `checkWorkflowBackupRemove`
(lines 150-209); every `continue` ends the body. -/
def checkWorkflowBackupRemoveItem (env : Env) (st : State) (mb : MaterializedBackup) : State :=
  match mb.RunningDeleteWorkflowID with
  | none => st
  | some wid =>
  match getWorkflowInstance env st wid with
  | (st, _, some _) =>
    -- relaunch = true
    match getBackupSpec env st mb.BackupName with
    | (st, _, some _) => st
    | (st, bs, none) =>
      -- the new workflow id `wid` is only written to the log
      (launchRemoveBackupWorkflow env st mb.BackupName mb.DataID bs.TimeoutSeconds
        bs.WorkerConfig).1
  | (st, wf, none) =>
  if wf.status = "RUNNING" then st
  else
  match (if wf.status ≠ "COMPLETED" then
      setStatusMaterializedBackup env st mb.ID "delete-error" mb.RunningDeleteWorkflowID
    else (st, none)) with
  | (st, some _) => st
  | (st, none) => (setStatusMaterializedBackup env st mb.ID "deleted" none).1

/-- `checkWorkflowBackupRemove(backupName)`. -/
def checkWorkflowBackupRemove (env : Env) (st : State) (backupName : String) : State :=
  match getMaterializedBackups env st backupName 20 "" "deleting" false with
  | (st, _, some _) => st
  | (st, mbs, none) => mbs.foldl (checkWorkflowBackupRemoveItem env) st

/-- The loop `for _, backup := range electedBackups` of `RunRetentionTask`
(lines 81-93).  When `triggerBackupDelete` returns an error, line 87 calls
`retentionBackupsDeleteCounter.WithLabelValues("error")` with one value for a
counter declared with the two labels `backup` and `status` (lines 19-25);
`WithLabelValues` panics on a wrong number of values, so the `continue` of line
88 is not reached and the loop ends there.  The second result tells whether the
loop ended by that panic. -/
def deleteElected (env : Env) : State → List MaterializedBackup → State × Bool
  | st, [] => (st, false)
  | st, backup :: rest =>
    match triggerBackupDelete env st backup.ID with
    | (st, some _) => (st, true)
    | (st, none) => deleteElected env st rest

/-- Lines 58-96 of `RunRetentionTask`, run while the retention lock is held.
The result of `tagAllBackups` is not read.  The second result tells whether
the function was left by the panic of the delete loop. -/
def RunRetentionTaskLocked (env : Env) (st : State) (backupName : String) : State × Bool :=
  match getBackupSpec env st backupName with
  | (st, _, some _) => (st, false)
  | (st, bs, none) =>
  match tagAllBackups env st backupName with
  | (st, _) =>
  match appendElectedForTag env st backupName "" "0" [] with
  | (st, electedBackups) =>
  match appendElectedForTag env st backupName "minutely" (paramAt bs.MinutelyParams 0)
      electedBackups with
  | (st, electedBackups) =>
  match appendElectedForTag env st backupName "hourly" (paramAt bs.HourlyParams 0)
      electedBackups with
  | (st, electedBackups) =>
  match appendElectedForTag env st backupName "daily" (paramAt bs.DailyParams 0)
      electedBackups with
  | (st, electedBackups) =>
  match appendElectedForTag env st backupName "weekly" (paramAt bs.WeeklyParams 0)
      electedBackups with
  | (st, electedBackups) =>
  match appendElectedForTag env st backupName "monthly" (paramAt bs.MonthlyParams 0)
      electedBackups with
  | (st, electedBackups) =>
  match appendElectedForTag env st backupName "yearly" (paramAt bs.YearlyParams 0)
      electedBackups with
  | (st, electedBackups) =>
  deleteElected env st electedBackups

/-- `RunRetentionTask(backupName)`: `retentionLock(backupName).Lock()`, then
`defer retentionLock(backupName).Unlock()`, whose mutex is looked up when the
`defer` statement runs.  The result is the state in which the function is
left, by its return or by the panic of the delete loop; the deferred `Unlock`
runs in both cases. -/
def RunRetentionTask (env : Env) (st : State) (backupName : String) : State :=
  match retentionLock st backupName with
  | (st, m) =>
  match retentionLock (st.log (.mutexLock m) true) backupName with
  | (st, m') => (RunRetentionTaskLocked env st backupName).1.log (.mutexUnlock m') true

/-- The state in which the body of `RunRetentionTask` starts: the mutex of
`backupName` looked up (made when missing), locked, and looked up again for the
deferred `Unlock`. -/
def retentionLocked (st : State) (backupName : String) : State :=
  (retentionLock ((retentionLock st backupName).1.log
    (.mutexLock (retentionLock st backupName).2) true) backupName).1

/-- Whether `RunRetentionTask(backupName)` is left by the panic of the delete
loop. -/
def RunRetentionTaskPanics (env : Env) (st : State) (backupName : String) : Bool :=
  (RunRetentionTaskLocked env (retentionLocked st backupName) backupName).2

/-- The state of `RunRetentionTask` after `tagAllBackups`, when the spec was
loaded. -/
def retentionTagged (env : Env) (st : State) (backupName : String) : State :=
  (tagAllBackups env ((retentionLocked st backupName).log (.getBackupSpec backupName) true)
    backupName).1

/-- The ids with which `getMaterializedBackup` is called in a list of events;
`triggerBackupDelete(id)` starts with that call. -/
def triggeredIDs (evs : List Event) : List String :=
  evs.filterMap (fun e =>
    match e.call with
    | .getMaterializedBackup id => some id
    | _ => none)

/-- Lines 71-78 of `RunRetentionTask`: the seven `appendElectedForTag` calls,
starting from the empty list. -/
def electBackups (env : Env) (st : State) (backupName : String) (bs : BackupSpec) :
    State × List MaterializedBackup :=
  match appendElectedForTag env st backupName "" "0" [] with
  | (st, electedBackups) =>
  match appendElectedForTag env st backupName "minutely" (paramAt bs.MinutelyParams 0)
      electedBackups with
  | (st, electedBackups) =>
  match appendElectedForTag env st backupName "hourly" (paramAt bs.HourlyParams 0)
      electedBackups with
  | (st, electedBackups) =>
  match appendElectedForTag env st backupName "daily" (paramAt bs.DailyParams 0)
      electedBackups with
  | (st, electedBackups) =>
  match appendElectedForTag env st backupName "weekly" (paramAt bs.WeeklyParams 0)
      electedBackups with
  | (st, electedBackups) =>
  match appendElectedForTag env st backupName "monthly" (paramAt bs.MonthlyParams 0)
      electedBackups with
  | (st, electedBackups) =>
  appendElectedForTag env st backupName "yearly" (paramAt bs.YearlyParams 0) electedBackups

/-- The tags of the election in the order `''`, minutely, ..., yearly, each
with the COUNT part of its retention string (`0` for the untagged sweep). -/
def electionTags (bs : BackupSpec) : List (String × String) :=
  [("", "0"), ("minutely", paramAt bs.MinutelyParams 0), ("hourly", paramAt bs.HourlyParams 0),
   ("daily", paramAt bs.DailyParams 0), ("weekly", paramAt bs.WeeklyParams 0),
   ("monthly", paramAt bs.MonthlyParams 0), ("yearly", paramAt bs.YearlyParams 0)]

/-- What one tag contributes to the election, stated on its own: the answer of
`getExclusiveTagAvailableMaterializedBackups(name, tag, count, 30)` on the
table `rows`, or nothing when COUNT does not parse as an integer or when the
query (issued as call number `t`) fails. -/
def tagContribution (env : Env) (backupName : String) (rows : List MaterializedBackup) (t : Nat)
    (tag count : String) : List MaterializedBackup :=
  match Atoi count with
  | none => []
  | some ret =>
    match env.dbErr t with
    | some _ => []
    | none => env.getExclusiveTagAvailable backupName tag ret 30 rows

/-- The concatenation of the contributions of a list of tags.  A query is
issued, and so the call number moves on, only for a COUNT that parses. -/
def electedConcat (env : Env) (backupName : String) (rows : List MaterializedBackup) :
    Nat → List (String × String) → List MaterializedBackup
  | _, [] => []
  | t, (tag, count) :: rest =>
    tagContribution env backupName rows t tag count ++
      electedConcat env backupName rows (if (Atoi count).isSome then t + 1 else t) rest

/-! ## `tasks.go` -/

/-- A timer made by `cron.New()` in `launchBackupRoutine`.  It is identified
by a number and runs two functions for `backupName`: the first on the schedule
`cronString`, the second `@every 4h`. -/
structure CronTimer where
  id : Nat
  backupName : String
  cronString : String
deriving DecidableEq

/-- The scheduler: the store with its trace, the map `scheduledRoutineHashes`
(routine key to timer, in insertion order), the timers started with
`go c.Start()` and the timers stopped with `cronJob.Stop()`. -/
structure Scheduler where
  st : State
  scheduledRoutineHashes : List (String × CronTimer)
  started : List CronTimer
  stopped : List CronTimer

/-- The routine key `fmt.Sprintf("%s|%s)", name, cron)`. -/
def routineHash (name cron : String) : String := name ++ "|" ++ cron ++ ")"

/-- The Go expression `*bs.BackupCronString`.  Column `backup_cron_string` is
`NOT NULL` in `backtor/db.go`; on a nil pointer Go panics, which is not
modelled (the empty string stands for it). -/
def BackupSpec.cron (bs : BackupSpec) : String := bs.BackupCronString.getD ""

/-- Go map assignment `m[k] = v`. -/
def mapSet (m : List (String × CronTimer)) (k : String) (v : CronTimer) :
    List (String × CronTimer) :=
  if m.any (fun e => e.1 = k) then m.map (fun e => if e.1 = k then (k, v) else e)
  else m ++ [(k, v)]

/-- Modelled from the spec: `listBackupSpecs` is declared in a file that is not
among the sources.  Spec 4.1: `listSpecs(enabled?: bool) → [Spec]`; with
`enabled` given, the specs whose `enabled` column has that value. -/
def listBackupSpecs (env : Env) (st : State) (enabled : Option Int) :
    State × List BackupSpec × Option String :=
  match env.dbErr st.tick with
  | some e => (st.log (.listBackupSpecs enabled) false, [], some e)
  | none =>
    (st.log (.listBackupSpecs enabled) true,
      st.specs.filter (fun bs =>
        match enabled with
        | none => true
        | some v => bs.Enabled = v), none)

/-- `launchBackupRoutine(backupName) error`: the new timer gets the next free
number, is put into the map under the routine key and is started. -/
def launchBackupRoutine (env : Env) (sch : Scheduler) (backupName : String) :
    Scheduler × Option String :=
  match getBackupSpec env sch.st backupName with
  | (st, _, some _) => ({ sch with st := st }, some "Couldn't load backup spec")
  | (st, bs1, none) =>
    ({ st := st
       scheduledRoutineHashes :=
         mapSet sch.scheduledRoutineHashes (routineHash backupName bs1.cron)
           { id := sch.started.length, backupName := backupName, cronString := bs1.cron }
       started := sch.started ++
         [{ id := sch.started.length, backupName := backupName, cronString := bs1.cron }]
       stopped := sch.stopped }, none)

/-- The first loop of `prepareTimers` (lines 61-76) over the enabled specs: a
spec whose routine key is not a key of the map gets a timer; the first error
of `launchBackupRoutine` ends `prepareTimers`. -/
def prepareTimersLaunch (env : Env) : Scheduler → List BackupSpec → Scheduler × Option String
  | sch, [] => (sch, none)
  | sch, bs :: rest =>
    if sch.scheduledRoutineHashes.any (fun e => routineHash bs.Name bs.cron = e.1) then
      prepareTimersLaunch env sch rest
    else
      match launchBackupRoutine env sch bs.Name with
      | (sch, some err) => (sch, some err)
      | (sch, none) => prepareTimersLaunch env sch rest

/-- The test `isActive` of the second loop of `prepareTimers` (lines 81-88). -/
def isActiveRoutine (enabledBackupSpecs : List BackupSpec) (hashRoutine : String) : Bool :=
  enabledBackupSpecs.any (fun bs => hashRoutine = routineHash bs.Name bs.cron)

/-- `prepareTimers() error`.  The second loop (lines 80-94) stops and deletes
every entry of the map that is not active; deleting the entry at hand while
ranging over a Go map leaves the other entries to be visited. -/
def prepareTimers (env : Env) (sch : Scheduler) : Scheduler × Option String :=
  match listBackupSpecs env sch.st (some 1) with
  | (st, _, some err) => ({ sch with st := st }, some err)
  | (st, enabledBackupSpecs, none) =>
    match prepareTimersLaunch env { sch with st := st } enabledBackupSpecs with
    | (sch, some err) => (sch, some err)
    | (sch, none) =>
      ({ sch with
          scheduledRoutineHashes :=
            sch.scheduledRoutineHashes.filter (fun e => isActiveRoutine enabledBackupSpecs e.1)
          stopped := sch.stopped ++
            (sch.scheduledRoutineHashes.filter
              (fun e => !isActiveRoutine enabledBackupSpecs e.1)).map (fun e => e.2) }, none)

/-- The function added to the timer with `c.AddFunc(*bs1.BackupCronString,
func() ...)` (lines 107-150).  `now1` and `now2` are the two readings of
`time.Now()`, the first compared with `ToDate`, the second with `FromDate`.
The second result lists, in order, the task functions the fire invoked. -/
def backupTimerFire (env : Env) (st : State) (backupName : String) (now1 now2 : Int) :
    State × List String :=
  match getBackupSpec env
      (checkWorkflowBackupRemove env (checkBackupWorkflow env st backupName) backupName)
      backupName with
  | (st, _, some _) => (st, ["checkBackupWorkflow", "checkWorkflowBackupRemove"])
  | (st, bs, none) =>
    if bs.Enabled = 0 then (st, ["checkBackupWorkflow", "checkWorkflowBackupRemove"])
    else
      let isBefore : Bool :=
        match bs.ToDate with
        | none => true
        | some toDate => decide (now1 < toDate)
      let isAfter : Bool :=
        match bs.FromDate with
        | none => true
        | some fromDate => decide (fromDate < now2)
      if isBefore && isAfter then
        (RunRetentionTask env (triggerNewBackup env st backupName).1 backupName,
          ["checkBackupWorkflow", "checkWorkflowBackupRemove", "triggerNewBackup",
            "RunRetentionTask"])
      else (st, ["checkBackupWorkflow", "checkWorkflowBackupRemove"])

/-- The routine keys of the enabled specs of a table of backup specs. -/
def enabledKeys (specs : List BackupSpec) : List String :=
  (specs.filter (fun bs => bs.Enabled = 1)).map (fun bs => routineHash bs.Name bs.cron)

/-- The calls made between two states of one run. -/
def eventsSince (st st' : State) : List Event := st'.trace.drop st.trace.length

/-- Rank of a status on the delete path `COMPLETED → deleting → deleted`
(`delete-error` is an end of the path, like `deleted`). -/
def statusRank (status : String) : Nat :=
  if status = "COMPLETED" then 0
  else if status = "deleting" then 1
  else 2

/-- What `triggerBackupDelete` may do to a row: keep its id, not lower the rank
of its status, and change it only from `COMPLETED` with no delete workflow to
`deleting`. -/
def triggerStep (a b : MaterializedBackup) : Prop :=
  b.ID = a.ID ∧ statusRank a.Status ≤ statusRank b.Status ∧
    (b ≠ a → a.Status = "COMPLETED" ∧ a.RunningDeleteWorkflowID = none ∧ b.Status = "deleting")

/-- What `checkWorkflowBackupRemove` may do to a row: keep its id, not lower the
rank of its status, and change it only when its status is `deleting`. -/
def removeStep (a b : MaterializedBackup) : Prop :=
  b.ID = a.ID ∧ statusRank a.Status ≤ statusRank b.Status ∧ (a.Status ≠ "deleting" → b = a)

/-- The bucket queries of the store are `UPDATE` statements on tag columns:
they keep the rows and their ids. -/
def Env.keepsIDs (env : Env) : Prop :=
  (∀ rows, (env.clearTagsAndReference rows).map (fun mb => mb.ID) = rows.map (fun mb => mb.ID)) ∧
  (∀ a1 a2 rows,
    (env.markReferencesMinutely a1 a2 rows).map (fun mb => mb.ID) = rows.map (fun mb => mb.ID)) ∧
  (∀ a1 a2 a3 a4 a5 a6 rows,
    (env.markTag a1 a2 a3 a4 a5 a6 rows).map (fun mb => mb.ID) = rows.map (fun mb => mb.ID))

/-- All six tag flags of a row are set. -/
def allTagsSet (mb : MaterializedBackup) : Prop :=
  mb.Minutely = 1 ∧ mb.Hourly = 1 ∧ mb.Daily = 1 ∧ mb.Weekly = 1 ∧ mb.Monthly = 1 ∧ mb.Yearly = 1

/-- The mutex calls among a list of events. -/
def lockCalls (evs : List Event) : List Call :=
  (evs.map (fun e => e.call)).filter (fun c =>
    match c with
    | .mutexLock _ => true
    | .mutexUnlock _ => true
    | _ => false)

/-! ## Example worlds -/

/-- Modelled from the spec: the query behind
`getExclusiveTagAvailableMaterializedBackups`, used by the example worlds.
Spec 4.3: from rows with `status=COMPLETED` and tag flag `t=1` (or all flags 0
for the empty tag), the oldest surplus beyond `count`, capped at `limit`. -/
def exclusiveTagAvailable (name tag : String) (count limit : Int)
    (rows : List MaterializedBackup) : List MaterializedBackup :=
  let flag : MaterializedBackup → Bool := fun mb =>
    if tag = "" then
      mb.Minutely = 0 ∧ mb.Hourly = 0 ∧ mb.Daily = 0 ∧ mb.Weekly = 0 ∧ mb.Monthly = 0 ∧
        mb.Yearly = 0
    else if tag = "minutely" then mb.Minutely = 1
    else if tag = "hourly" then mb.Hourly = 1
    else if tag = "daily" then mb.Daily = 1
    else if tag = "weekly" then mb.Weekly = 1
    else if tag = "monthly" then mb.Monthly = 1
    else if tag = "yearly" then mb.Yearly = 1
    else false
  let sel := rows.filter (fun mb => mb.BackupName = name ∧ mb.Status = "COMPLETED" ∧ flag mb)
  let newestFirst := sel.insertionSort (fun a b => b.EndTime ≤ a.EndTime)
  ((newestFirst.drop count.toNat).reverse).take limit.toNat

/-- Modelled from the spec: `clearAllTagsAndReferences`, used by the example
worlds.  Spec 4.3 step 2: all six tag flags and `reference` set to 0. -/
def clearTagsRows (rows : List MaterializedBackup) : List MaterializedBackup :=
  rows.map (fun mb =>
    { mb with Minutely := 0, Hourly := 0, Daily := 0, Weekly := 0, Monthly := 0, Yearly := 0,
              Reference := 0 })

/-- An example world: store calls fail as `dbErr` says, every workflow lookup
answers `(wf, wfErr)`, a create launch answers `w2`, a remove launch answers
`z`, and the bucket-marking queries mark no row. -/
def exampleEnv (dbErr : Nat → Option String) (wf : WorkflowInstance) (wfErr : Option String) :
    Env :=
  { dbErr := dbErr
    getWorkflowInstance := fun _ _ => (wf, wfErr)
    launchCreateBackupWorkflow := fun _ _ => ("w2", none)
    launchRemoveBackupWorkflow := fun _ _ _ _ _ => ("z", none)
    clearTagsAndReference := clearTagsRows
    markReferencesMinutely := fun _ _ rows => rows
    markTag := fun _ _ _ _ _ _ rows => rows
    getExclusiveTagAvailable := exclusiveTagAvailable }

/-- No store call fails. -/
def noDbErr : Nat → Option String := fun _ => none

/-- Only the store call issued as call number `k` fails. -/
def dbErrAt (k : Nat) : Nat → Option String := fun t => if t = k then some "database is locked" else none

/-- Backup spec `db1` with the default retention strings of `backtor/db.go` and
a create workflow `w1` in flight. -/
def specDb1 : BackupSpec :=
  { Name := "db1", Enabled := 1, RunningCreateWorkflowID := some "w1",
    BackupCronString := some "0 * * * * *", FromDate := none, ToDate := none,
    TimeoutSeconds := 60, WorkerConfig := none,
    RetentionMinutely := "0@L", RetentionHourly := "0@L", RetentionDaily := "4@L",
    RetentionWeekly := "4@L", RetentionMonthly := "3@L", RetentionYearly := "2@L" }

/-- A workflow instance of the given id, status, data id and size. -/
def wfOf (id status : String) (dataID : Option String) (size : Option ℚ) : WorkflowInstance :=
  { workflowID := id, status := status, dataID := dataID, dataSizeMB := size,
    startTime := 100, endTime := 160 }

/-- A materialized backup of `db1` with no tag set. -/
def backupOf (id status : String) (deleteWorkflowID : Option String) (endTime : Int) :
    MaterializedBackup :=
  { ID := id, BackupName := "db1", DataID := some ("data-" ++ id), Status := status,
    RunningDeleteWorkflowID := deleteWorkflowID, StartTime := endTime - 60, EndTime := endTime,
    SizeMB := some 10, Minutely := 0, Hourly := 0, Daily := 0, Weekly := 0, Monthly := 0,
    Yearly := 0, Reference := 0 }

/-- A state with the one spec `db1`, the given materialized backups, no
retention lock and no call made yet. -/
def stateOf (backups : List MaterializedBackup) : State :=
  { specs := [specDb1], backups := backups, retentionLocks := [], trace := [] }

/-- Spec `db1` with a daily retention string whose COUNT is not a number. -/
def specBadDaily : BackupSpec := { specDb1 with RetentionDaily := "x@L" }

/-- The store calls number 4 and 8 fail. -/
def dbErrAt4And8 : Nat → Option String :=
  fun t => if t = 4 ∨ t = 8 then some "database is locked" else none

/-- A state with the one spec `specBadDaily`, one COMPLETED backup `b1` without
tags, and no call made yet. -/
def stateBadDaily : State :=
  { specs := [specBadDaily], backups := [backupOf "b1" "COMPLETED" none 1000],
    retentionLocks := [], trace := [] }

/-- Spec `db2`, enabled, with the cron string `@hourly`. -/
def specDb2 : BackupSpec :=
  { specDb1 with Name := "db2", RunningCreateWorkflowID := none,
                 BackupCronString := some "@hourly" }

/-- Spec `db3`, not enabled. -/
def specDb3 : BackupSpec :=
  { specDb1 with Name := "db3", Enabled := 0, RunningCreateWorkflowID := none,
                 BackupCronString := some "@daily" }

/-- A scheduler over the specs `db1` (cron `0 * * * * *`), `db2` and `db3` with
three running timers: one for `db2`, one made for `db1` when its cron string
was `@daily`, one made for `db3` when it was enabled. -/
def exampleScheduler : Scheduler :=
  { st := { specs := [specDb1, specDb2, specDb3], backups := [], retentionLocks := [],
            trace := [] }
    scheduledRoutineHashes :=
      [("db2|@hourly)", { id := 0, backupName := "db2", cronString := "@hourly" }),
       ("db1|@daily)", { id := 1, backupName := "db1", cronString := "@daily" }),
       ("db3|@daily)", { id := 2, backupName := "db3", cronString := "@daily" })]
    started :=
      [{ id := 0, backupName := "db2", cronString := "@hourly" },
       { id := 1, backupName := "db1", cronString := "@daily" },
       { id := 2, backupName := "db3", cronString := "@daily" }]
    stopped := [] }

/-- Spec `db1`, enabled, no create workflow in flight, active from instant 100
to instant 500. -/
def specWindow : BackupSpec :=
  { specDb1 with RunningCreateWorkflowID := none, FromDate := some 100, ToDate := some 500 }

/-- A state with the one spec `specWindow`, no backup and no call made yet. -/
def stateWindow : State :=
  { specs := [specWindow], backups := [], retentionLocks := [], trace := [] }

/-- The store calls number 4 and 12 fail. -/
def dbErrAt4And12 : Nat → Option String :=
  fun t => if t = 4 ∨ t = 12 then some "database is locked" else none

/-- A state with the one spec `specBadDaily`, two COMPLETED backups `b1` (older)
and `b2` without tags, and no call made yet. -/
def stateTwoUntagged : State :=
  { specs := [specBadDaily],
    backups := [backupOf "b1" "COMPLETED" none 1000, backupOf "b2" "COMPLETED" none 2000],
    retentionLocks := [], trace := [] }

/-! # Theorems -/

@[simp]
theorem State.log_specs (st : State) (c : Call) (ok : Bool) : (st.log c ok).specs = st.specs := rfl

@[simp]
theorem State.log_backups (st : State) (c : Call) (ok : Bool) :
    (st.log c ok).backups = st.backups := rfl

@[simp]
theorem State.log_retentionLocks (st : State) (c : Call) (ok : Bool) :
    (st.log c ok).retentionLocks = st.retentionLocks := rfl

@[simp]
theorem State.log_tick (st : State) (c : Call) (ok : Bool) : (st.log c ok).tick = st.tick + 1 := by
  simp [State.tick, State.log]

@[simp]
theorem State.log_trace (st : State) (c : Call) (ok : Bool) :
    (st.log c ok).trace = st.trace ++ [⟨c, ok⟩] := rfl

/-! ## The store primitives as triples

Each primitive logs one call, whose outcome is `ok` exactly when the returned
error is `nil`. -/

theorem getBackupSpec_fst (env : Env) (st : State) (name : String) :
    (getBackupSpec env st name).1 =
      st.log (.getBackupSpec name) (getBackupSpec env st name).2.2.isNone := by
  unfold getBackupSpec
  cases env.dbErr st.tick with
  | some e => rfl
  | none => simp only []; cases st.specs.find? _ <;> rfl

theorem dbBegin_eq (env : Env) (st : State) :
    dbBegin env st = (st.log .dbBegin (env.dbErr st.tick).isNone,
      if (env.dbErr st.tick).isNone then st.backups else [], env.dbErr st.tick) := by
  unfold dbBegin; cases env.dbErr st.tick <;> rfl

theorem getMaterializedBackups_eq (env : Env) (st : State) (name : String) (limit : Nat)
    (afterID status : String) (ascending : Bool) :
    getMaterializedBackups env st name limit afterID status ascending =
      (st.log (.getMaterializedBackups name limit afterID status ascending)
          (env.dbErr st.tick).isNone,
        if (env.dbErr st.tick).isNone then listMaterialized st.backups name limit status ascending
        else [],
        env.dbErr st.tick) := by
  unfold getMaterializedBackups; cases env.dbErr st.tick <;> rfl

theorem txExec_eq (env : Env) (st : State) (c : Call)
    (f : List MaterializedBackup → List MaterializedBackup) (v : List MaterializedBackup) :
    txExec env st c f v = (st.log c (env.dbErr st.tick).isNone,
      if (env.dbErr st.tick).isNone then f v else v, env.dbErr st.tick) := by
  unfold txExec; cases env.dbErr st.tick <;> rfl

theorem txCommit_eq (env : Env) (st : State) (v : List MaterializedBackup) :
    txCommit env st v =
      (State.log { st with backups := if (env.dbErr st.tick).isNone then v else st.backups }
        .txCommit (env.dbErr st.tick).isNone, env.dbErr st.tick) := by
  unfold txCommit; cases env.dbErr st.tick <;> rfl

theorem updateBackupSpecRunningCreateWorkflowID_eq (env : Env) (st : State) (name : String)
    (w : Option String) :
    updateBackupSpecRunningCreateWorkflowID env st name w =
      (State.log { st with specs :=
          if (env.dbErr st.tick).isNone then setRunningCreateRows st.specs name w
          else st.specs }
        (.updateBackupSpecRunningCreateWorkflowID name w) (env.dbErr st.tick).isNone,
        env.dbErr st.tick) := by
  unfold updateBackupSpecRunningCreateWorkflowID; cases env.dbErr st.tick <;> rfl

theorem setStatusMaterializedBackup_eq (env : Env) (st : State) (id status : String)
    (w : Option String) :
    setStatusMaterializedBackup env st id status w =
      (State.log { st with backups :=
          if (env.dbErr st.tick).isNone then setStatusRows st.backups id status w
          else st.backups }
        (.setStatusMaterializedBackup id status w) (env.dbErr st.tick).isNone,
        env.dbErr st.tick) := by
  unfold setStatusMaterializedBackup; cases env.dbErr st.tick <;> rfl

theorem createMaterializedBackup_specs (env : Env) (st : State) (id name : String)
    (dataID : Option String) (status : String) (t1 t2 : Int) (size : Option ℚ) :
    (createMaterializedBackup env st id name dataID status t1 t2 size).1.specs = st.specs ∧
    (createMaterializedBackup env st id name dataID status t1 t2 size).1.trace =
      st.trace ++ [⟨.createMaterializedBackup id name dataID status t1 t2 size,
        (createMaterializedBackup env st id name dataID status t1 t2 size).2.isNone⟩] := by
  unfold createMaterializedBackup
  cases env.dbErr st.tick with
  | some e => simp
  | none => simp only []; split <;> simp

/-- `tagAllBackups` leaves the backup specs and the lock map alone, and every
call it makes is a read of the spec, a read of the backups or a call on the
tagging transaction: it never creates a materialized backup. -/
theorem tagAllBackups_frame (env : Env) (st : State) (backupName : String) :
    (tagAllBackups env st backupName).1.specs = st.specs ∧
    (tagAllBackups env st backupName).1.retentionLocks = st.retentionLocks ∧
    (tagAllBackups env st backupName).1.trace =
      st.trace ++ eventsSince st (tagAllBackups env st backupName).1 ∧
    ∀ e ∈ eventsSince st (tagAllBackups env st backupName).1,
      ∀ id n d s t1 t2 sz, e.call ≠ Call.createMaterializedBackup id n d s t1 t2 sz := by
  unfold tagAllBackups
  have h0 := getBackupSpec_fst env st backupName
  generalize getBackupSpec env st backupName = g at h0 ⊢
  obtain ⟨st0, bs, err0⟩ := g
  simp only at h0
  subst h0
  simp only [dbBegin_eq, getMaterializedBackups_eq, clearTagsAndReferenceMaterializedBackup,
    markReferencesMinutelyMaterializedBackup, markTagMaterializedBackup,
    setAllTagsMaterializedBackup, txExec_eq, txCommit_eq, txRollback, State.log_tick]
  repeat' split
  all_goals simp only [Prod.mk.injEq] at *
  all_goals casesm* _ ∧ _
  all_goals subst_vars
  all_goals simp_all [eventsSince]

/-- C1: when the backup spec has `runningCreateWorkflowID = id` and the
workflow engine reports `id` with status RUNNING, `triggerNewBackup` returns an
error, none of the calls it makes is `launchCreateBackupWorkflow`, and the
table of backup specs (so `runningCreateWorkflowID`) is unchanged. -/
theorem triggerNewBackup_running_refused (env : Env) (st : State) (backupName id : String)
    (bs : BackupSpec)
    (hspec : st.specs.find? (fun b => b.Name = backupName) = some bs)
    (hid : bs.RunningCreateWorkflowID = some id)
    (hrun : ∀ t, (env.getWorkflowInstance t id).1.status = "RUNNING") :
    (triggerNewBackup env st backupName).2.2 ≠ none ∧
    (∃ evs, (triggerNewBackup env st backupName).1.trace = st.trace ++ evs ∧
      ∀ e ∈ evs, ∀ n, e.call ≠ Call.launchCreateBackupWorkflow n) ∧
    (triggerNewBackup env st backupName).1.specs = st.specs := by
  unfold triggerNewBackup getBackupSpec
  cases hdb : env.dbErr st.tick with
  | some e =>
    simp
  | none =>
    simp only [hspec, hid, getWorkflowInstance]
    have h := hrun (st.log (Call.getBackupSpec backupName) true).tick
    generalize env.getWorkflowInstance (st.log (Call.getBackupSpec backupName) true).tick id = r
      at h ⊢
    obtain ⟨wf, err⟩ := r
    simp only at h
    cases err <;> simp [h]

/-- C1 at a concrete input: spec `db1` has `runningCreateWorkflowID = w1` and
the engine reports `w1` as RUNNING. -/
theorem triggerNewBackup_running_refused_witness :
    (triggerNewBackup (exampleEnv noDbErr (wfOf "w1" "RUNNING" none none) none) (stateOf [])
        "db1").2.2 ≠ none ∧
    (∃ evs, (triggerNewBackup (exampleEnv noDbErr (wfOf "w1" "RUNNING" none none) none) (stateOf [])
        "db1").1.trace = (stateOf []).trace ++ evs ∧
      ∀ e ∈ evs, ∀ n, e.call ≠ Call.launchCreateBackupWorkflow n) ∧
    (triggerNewBackup (exampleEnv noDbErr (wfOf "w1" "RUNNING" none none) none) (stateOf [])
        "db1").1.specs = (stateOf []).specs :=
  triggerNewBackup_running_refused (exampleEnv noDbErr (wfOf "w1" "RUNNING" none none) none)
    (stateOf []) "db1" "w1" specDb1 (by decide) (by decide) (fun _ => rfl)

/-! ## `checkBackupWorkflow` -/

theorem getBackupSpec_cases (env : Env) (st : State) (name : String) :
    (∃ bs, st.specs.find? (fun b => b.Name = name) = some bs ∧
      getBackupSpec env st name = (st.log (.getBackupSpec name) true, bs, none)) ∨
    (∃ e, getBackupSpec env st name = (st.log (.getBackupSpec name) false, BackupSpec.zero, some e)) := by
  unfold getBackupSpec
  cases env.dbErr st.tick with
  | some e => exact Or.inr ⟨e, rfl⟩
  | none =>
    cases hf : st.specs.find? (fun b => b.Name = name) with
    | none => exact Or.inr ⟨_, rfl⟩
    | some bs => exact Or.inl ⟨bs, rfl, rfl⟩

/-- What `checkBackupWorkflowLocked` does to the table of backup specs: nothing,
or it clears the running create workflow of `backupName`. -/
theorem checkBackupWorkflowLocked_specs (env : Env) (st : State) (backupName : String)
    (wf : WorkflowInstance) :
    (checkBackupWorkflowLocked env st backupName wf).specs = st.specs ∨
    (checkBackupWorkflowLocked env st backupName wf).specs =
      setRunningCreateRows st.specs backupName none := by
  unfold checkBackupWorkflowLocked
  simp only [updateBackupSpecRunningCreateWorkflowID_eq]
  cases hdb : env.dbErr st.tick with
  | some e => simp
  | none =>
    simp only [Option.isNone_none, if_true]
    split
    · simp
    · split
      · simp
      · have hc := createMaterializedBackup_specs env
          (State.log { st with specs := setRunningCreateRows st.specs backupName none }
            (.updateBackupSpecRunningCreateWorkflowID backupName none) true)
          wf.workflowID backupName wf.dataID wf.status wf.startTime wf.endTime wf.dataSizeMB
        generalize createMaterializedBackup env _ wf.workflowID backupName wf.dataID wf.status
          wf.startTime wf.endTime wf.dataSizeMB = c at hc ⊢
        obtain ⟨st1, err⟩ := c
        cases err with
        | some e => simp at hc ⊢; simp [hc.1]
        | none =>
          simp at hc ⊢
          rw [(tagAllBackups_frame env st1 backupName).1, hc.1]
          simp

/-- C2 as stated fails: the create workflow `w1` of `db1` is COMPLETED with
data, `createMaterializedBackup` (call number 4) fails, and at the end of the
run `runningCreateWorkflowID` of `db1` is cleared all the same. -/
theorem checkBackupWorkflow_cleared_though_persistence_failed :
    (stateOf []).specs.map (fun b => b.RunningCreateWorkflowID) = [some "w1"] ∧
    (⟨Call.createMaterializedBackup "w1" "db1" (some "d1") "COMPLETED" 100 160 (some 10), false⟩ :
        Event) ∈
      (checkBackupWorkflow (exampleEnv (dbErrAt 4) (wfOf "w1" "COMPLETED" (some "d1") (some 10)) none)
        (stateOf []) "db1").trace ∧
    (checkBackupWorkflow (exampleEnv (dbErrAt 4) (wfOf "w1" "COMPLETED" (some "d1") (some 10)) none)
        (stateOf []) "db1").specs.map (fun b => b.RunningCreateWorkflowID) = [none] := by
  decide

/-- C2 (amended): `checkBackupWorkflow` changes the table of backup specs only
by clearing `runningCreateWorkflowID` of `backupName`, and only after the lookup
of the referenced workflow succeeded with a status other than RUNNING; when the
lookup fails or the workflow is RUNNING the specs are unchanged at the end of
the run. -/
theorem checkBackupWorkflow_clears_only_after_terminal (env : Env) (st : State)
    (backupName : String) :
    ((checkBackupWorkflow env st backupName).specs ≠ st.specs →
      ∃ bs id, st.specs.find? (fun b => b.Name = backupName) = some bs ∧
        bs.RunningCreateWorkflowID = some id ∧
        (env.getWorkflowInstance (st.tick + 1) id).2 = none ∧
        (env.getWorkflowInstance (st.tick + 1) id).1.status ≠ "RUNNING" ∧
        (checkBackupWorkflow env st backupName).specs =
          setRunningCreateRows st.specs backupName none) ∧
    (∀ bs id, st.specs.find? (fun b => b.Name = backupName) = some bs →
      bs.RunningCreateWorkflowID = some id →
      ((env.getWorkflowInstance (st.tick + 1) id).2 ≠ none ∨
        (env.getWorkflowInstance (st.tick + 1) id).1.status = "RUNNING") →
      (checkBackupWorkflow env st backupName).specs = st.specs) := by
  have key : (checkBackupWorkflow env st backupName).specs ≠ st.specs →
      ∃ bs id, st.specs.find? (fun b => b.Name = backupName) = some bs ∧
        bs.RunningCreateWorkflowID = some id ∧
        (env.getWorkflowInstance (st.tick + 1) id).2 = none ∧
        (env.getWorkflowInstance (st.tick + 1) id).1.status ≠ "RUNNING" ∧
        (checkBackupWorkflow env st backupName).specs =
          setRunningCreateRows st.specs backupName none := by
    unfold checkBackupWorkflow
    rcases getBackupSpec_cases env st backupName with ⟨bs, hf, hg⟩ | ⟨e, hg⟩
    · rw [hg]
      simp only []
      cases hid : bs.RunningCreateWorkflowID with
      | none => simp
      | some id =>
        simp only [getWorkflowInstance, State.log_tick]
        generalize hr : env.getWorkflowInstance (st.tick + 1) id = r
        obtain ⟨wf, err⟩ := r
        cases err with
        | some e => simp
        | none =>
          by_cases hrun : wf.status = "RUNNING"
          · simp [hrun]
          · simp only [hrun, if_false, State.log_specs]
            intro hne
            refine ⟨bs, id, hf, hid, by rw [hr], by rw [hr]; exact hrun, ?_⟩
            rcases checkBackupWorkflowLocked_specs env
              ((st.log (Call.getBackupSpec backupName) true).log (Call.getWorkflowInstance id)
                (none : Option String).isNone |>.log (Call.mutexLock avoidRetentionLock) true)
              backupName wf with h | h
            · exact absurd (by simpa using h) hne
            · simpa using h
    · rw [hg]
      simp [BackupSpec.zero]
  refine ⟨key, ?_⟩
  intro bs id hf hid hbad
  by_contra hne
  obtain ⟨bs', id', hf', hid', hok, hst, _⟩ := key hne
  rw [hf] at hf'
  cases hf'
  rw [hid] at hid'
  cases hid'
  rcases hbad with h | h
  · exact h hok
  · exact hst h

/-- C2 (amended) at a concrete input: the workflow `w1` of `db1` is RUNNING and
the specs are unchanged. -/
theorem checkBackupWorkflow_clears_only_after_terminal_witness :
    (checkBackupWorkflow (exampleEnv noDbErr (wfOf "w1" "RUNNING" none none) none) (stateOf [])
      "db1").specs = (stateOf []).specs :=
  (checkBackupWorkflow_clears_only_after_terminal
    (exampleEnv noDbErr (wfOf "w1" "RUNNING" none none) none) (stateOf []) "db1").2
    specDb1 "w1" (by decide) (by decide) (Or.inr (by decide))

theorem eventsSince_of_append (st st' : State) (evs : List Event)
    (h : st'.trace = st.trace ++ evs) : eventsSince st st' = evs := by
  simp [eventsSince, h]

/-- The calls of `checkBackupWorkflowLocked`: a `createMaterializedBackup` among
them carries the fields of the workflow, which passed the three checks. -/
theorem checkBackupWorkflowLocked_events (env : Env) (st : State) (backupName : String)
    (wf : WorkflowInstance) :
    ∃ evs, (checkBackupWorkflowLocked env st backupName wf).trace = st.trace ++ evs ∧
      ∀ e ∈ evs, ∀ id n d s t1 t2 sz, e.call = Call.createMaterializedBackup id n d s t1 t2 sz →
        (id = wf.workflowID ∧ n = backupName ∧ d = wf.dataID ∧ s = wf.status ∧
          t1 = wf.startTime ∧ t2 = wf.endTime ∧ sz = wf.dataSizeMB) ∧
        wf.status = "COMPLETED" ∧ wf.dataID ≠ none ∧ wf.dataSizeMB ≠ none ∧
        wf.dataSizeMB ≠ some 0 := by
  unfold checkBackupWorkflowLocked
  simp only [updateBackupSpecRunningCreateWorkflowID_eq]
  cases hdb : env.dbErr st.tick with
  | some e => exact ⟨_, rfl, by simp⟩
  | none =>
    simp only [Option.isNone_none, if_true]
    split
    · exact ⟨_, rfl, by simp⟩
    · rename_i hst
      split
      · exact ⟨_, rfl, by simp⟩
      · rename_i hdata
        have hc := createMaterializedBackup_specs env
          (State.log { st with specs := setRunningCreateRows st.specs backupName none }
            (.updateBackupSpecRunningCreateWorkflowID backupName none) true)
          wf.workflowID backupName wf.dataID wf.status wf.startTime wf.endTime wf.dataSizeMB
        generalize createMaterializedBackup env _ wf.workflowID backupName wf.dataID wf.status
          wf.startTime wf.endTime wf.dataSizeMB = c at hc ⊢
        obtain ⟨st1, err⟩ := c
        have hfacts : wf.status = "COMPLETED" ∧ wf.dataID ≠ none ∧ wf.dataSizeMB ≠ none ∧
            wf.dataSizeMB ≠ some 0 := by
          simp only [not_or] at hdata
          exact ⟨by simpa using hst, hdata.1, hdata.2.1, hdata.2.2⟩
        have hcre : ∀ e ∈ ([⟨.updateBackupSpecRunningCreateWorkflowID backupName none, true⟩,
            ⟨.createMaterializedBackup wf.workflowID backupName wf.dataID wf.status wf.startTime
              wf.endTime wf.dataSizeMB, err.isNone⟩] : List Event),
            ∀ id n d s t1 t2 sz, e.call = Call.createMaterializedBackup id n d s t1 t2 sz →
            (id = wf.workflowID ∧ n = backupName ∧ d = wf.dataID ∧ s = wf.status ∧
              t1 = wf.startTime ∧ t2 = wf.endTime ∧ sz = wf.dataSizeMB) ∧
            wf.status = "COMPLETED" ∧ wf.dataID ≠ none ∧ wf.dataSizeMB ≠ none ∧
            wf.dataSizeMB ≠ some 0 := by
          intro e he id n d s t1 t2 sz hcall
          simp only [List.mem_cons, List.mem_singleton, List.not_mem_nil, or_false] at he
          rcases he with rfl | rfl
          · simp at hcall
          · simp only [Call.createMaterializedBackup.injEq] at hcall
            obtain ⟨h1, h2, h3, h4, h5, h6, h7⟩ := hcall
            exact ⟨⟨h1.symm, h2.symm, h3.symm, h4.symm, h5.symm, h6.symm, h7.symm⟩, hfacts⟩
        simp only [State.log_trace, List.append_assoc, List.singleton_append] at hc
        cases err with
        | some e =>
          refine ⟨_, hc.2, ?_⟩
          exact hcre
        | none =>
          obtain ⟨_, _, htr, hno⟩ := tagAllBackups_frame env st1 backupName
          simp only []
          refine ⟨[⟨.updateBackupSpecRunningCreateWorkflowID backupName none, true⟩,
            ⟨.createMaterializedBackup wf.workflowID backupName wf.dataID wf.status wf.startTime
              wf.endTime wf.dataSizeMB, (none : Option String).isNone⟩] ++
            eventsSince st1 (tagAllBackups env st1 backupName).1, ?_, ?_⟩
          · rw [htr, hc.2, List.append_assoc]
          · intro e he id n d s t1 t2 sz hcall
            rcases List.mem_append.1 he with h | h
            · exact hcre e h id n d s t1 t2 sz hcall
            · exact absurd hcall (hno e h id n d s t1 t2 sz)

/-- C3 as stated fails: the create workflow `w1` of `db1` is COMPLETED with
data id `d1` and size `-1`; `createMaterializedBackup` is called and a record
with the negative size is in the store at the end of the run. -/
theorem checkBackupWorkflow_negative_size_recorded :
    ¬ ((0 : ℚ) < -1) ∧
    (⟨Call.createMaterializedBackup "w1" "db1" (some "d1") "COMPLETED" 100 160 (some (-1)), true⟩ :
        Event) ∈
      (checkBackupWorkflow (exampleEnv noDbErr (wfOf "w1" "COMPLETED" (some "d1") (some (-1))) none)
        (stateOf []) "db1").trace ∧
    (checkBackupWorkflow (exampleEnv noDbErr (wfOf "w1" "COMPLETED" (some "d1") (some (-1))) none)
        (stateOf []) "db1").backups.map (fun mb => (mb.ID, mb.Status, mb.SizeMB)) =
      [("w1", "COMPLETED", some (-1))] := by
  decide

/-- C3 (amended): every `createMaterializedBackup` call of a run of
`checkBackupWorkflow` is made for the workflow found by the lookup of the
spec's `runningCreateWorkflowID`, with the workflow's id, data id, status,
times and size, and only when that status is COMPLETED, the data id is not
null and the size is not null and not 0. -/
theorem checkBackupWorkflow_creates_only_completed (env : Env) (st : State)
    (backupName : String) (e : Event)
    (id n : String) (d : Option String) (s : String) (t1 t2 : Int) (sz : Option ℚ)
    (he : e ∈ eventsSince st (checkBackupWorkflow env st backupName))
    (hcall : e.call = Call.createMaterializedBackup id n d s t1 t2 sz) :
    s = "COMPLETED" ∧ d ≠ none ∧ sz ≠ none ∧ sz ≠ some 0 ∧ n = backupName ∧
    ∃ bs rid, st.specs.find? (fun b => b.Name = backupName) = some bs ∧
      bs.RunningCreateWorkflowID = some rid ∧
      (env.getWorkflowInstance (st.tick + 1) rid).2 = none ∧
      id = (env.getWorkflowInstance (st.tick + 1) rid).1.workflowID ∧
      s = (env.getWorkflowInstance (st.tick + 1) rid).1.status ∧
      d = (env.getWorkflowInstance (st.tick + 1) rid).1.dataID ∧
      sz = (env.getWorkflowInstance (st.tick + 1) rid).1.dataSizeMB ∧
      t1 = (env.getWorkflowInstance (st.tick + 1) rid).1.startTime ∧
      t2 = (env.getWorkflowInstance (st.tick + 1) rid).1.endTime := by
  unfold checkBackupWorkflow at he
  rcases getBackupSpec_cases env st backupName with ⟨bs, hf, hg⟩ | ⟨e0, hg⟩
  · rw [hg] at he
    simp only [] at he
    cases hid : bs.RunningCreateWorkflowID with
    | none =>
      simp only [hid, eventsSince, State.log_trace] at he
      simp at he
      subst he
      simp at hcall
    | some rid =>
      simp only [hid, getWorkflowInstance, State.log_tick] at he
      generalize hr : env.getWorkflowInstance (st.tick + 1) rid = r at he
      obtain ⟨wf, err⟩ := r
      cases err with
      | some e1 =>
        simp [eventsSince] at he
        rcases he with rfl | rfl <;> simp at hcall
      | none =>
        by_cases hrun : wf.status = "RUNNING"
        · simp [hrun, eventsSince] at he
          rcases he with rfl | rfl <;> simp at hcall
        · simp only [hrun, if_false, Option.isNone_none] at he
          obtain ⟨evs, htr, hev⟩ := checkBackupWorkflowLocked_events env
            ((st.log (Call.getBackupSpec backupName) true).log (Call.getWorkflowInstance rid)
              true |>.log (Call.mutexLock avoidRetentionLock) true)
            backupName wf
          rw [eventsSince_of_append st _
            ([⟨Call.getBackupSpec backupName, true⟩,
              ⟨Call.getWorkflowInstance rid, true⟩,
              ⟨Call.mutexLock avoidRetentionLock, true⟩] ++ evs ++
              [⟨Call.mutexUnlock avoidRetentionLock, true⟩])
            (by rw [State.log_trace, htr]; simp)] at he
          simp only [List.mem_append, List.mem_cons, List.mem_singleton, List.not_mem_nil,
            or_false] at he
          rcases he with ((rfl | rfl | rfl) | h) | rfl
          · simp at hcall
          · simp at hcall
          · simp at hcall
          · obtain ⟨⟨h1, h2, h3, h4, h5, h6, h7⟩, k1, k2, k3, k4⟩ :=
              hev e h id n d s t1 t2 sz hcall
            subst h1 h2 h3 h4 h5 h6 h7
            refine ⟨k1, k2, k3, k4, rfl, bs, rid, hf, hid, ?_⟩
            rw [hr]
            exact ⟨rfl, rfl, rfl, rfl, rfl, rfl, rfl⟩
          · simp at hcall
  · rw [hg] at he
    simp [BackupSpec.zero, eventsSince] at he
    subst he
    simp at hcall

/-- C3 (amended) at a concrete input: workflow `w1` is COMPLETED with data id
`d1` and size 10, and the record is created from it. -/
theorem checkBackupWorkflow_creates_only_completed_witness :
    (⟨Call.createMaterializedBackup "w1" "db1" (some "d1") "COMPLETED" 100 160 (some 10), true⟩ :
        Event) ∈ eventsSince (stateOf [])
      (checkBackupWorkflow (exampleEnv noDbErr (wfOf "w1" "COMPLETED" (some "d1") (some 10)) none)
        (stateOf []) "db1") ∧
    ("COMPLETED" = "COMPLETED" ∧ (some "d1" : Option String) ≠ none ∧
      (some 10 : Option ℚ) ≠ none ∧ (some 10 : Option ℚ) ≠ some 0 ∧ "db1" = "db1") :=
  let h := checkBackupWorkflow_creates_only_completed
    (exampleEnv noDbErr (wfOf "w1" "COMPLETED" (some "d1") (some 10)) none) (stateOf []) "db1"
    ⟨Call.createMaterializedBackup "w1" "db1" (some "d1") "COMPLETED" 100 160 (some 10), true⟩
    "w1" "db1" (some "d1") "COMPLETED" 100 160 (some 10) (by decide) rfl
  ⟨by decide, h.1, h.2.1, h.2.2.1, h.2.2.2.1, h.2.2.2.2.1⟩

/-! ## `checkWorkflowBackupRemove` and `triggerBackupDelete` -/

/-- C4 at a failing input: backup `b1` is in status `deleting` with delete
workflow `y`, the engine reports `y` as FAILED and no store call fails.  The run
sets `delete-error` with `y` and then goes on to set `deleted` with no workflow
id: the backup ends as `deleted` with `runningDeleteWorkflowID` cleared. -/
theorem checkWorkflowBackupRemove_failed_delete_ends_deleted :
    (checkWorkflowBackupRemove (exampleEnv noDbErr (wfOf "y" "FAILED" none none) none)
        (stateOf [backupOf "b1" "deleting" (some "y") 1000]) "db1").trace =
      [⟨Call.getMaterializedBackups "db1" 20 "" "deleting" false, true⟩,
       ⟨Call.getWorkflowInstance "y", true⟩,
       ⟨Call.setStatusMaterializedBackup "b1" "delete-error" (some "y"), true⟩,
       ⟨Call.setStatusMaterializedBackup "b1" "deleted" none, true⟩] ∧
    (checkWorkflowBackupRemove (exampleEnv noDbErr (wfOf "y" "FAILED" none none) none)
        (stateOf [backupOf "b1" "deleting" (some "y") 1000]) "db1").backups.map
        (fun mb => (mb.ID, mb.Status, mb.RunningDeleteWorkflowID)) =
      [("b1", "deleted", none)] := by
  decide

/-- C5 at a failing input: backup `b1` is in status `deleting` with delete
workflow `y`, the lookup of `y` fails and the relaunch succeeds with the new
id `z`.  The new id is not stored: `runningDeleteWorkflowID` is still `y` at
the end of the run (no `setStatusMaterializedBackup` call is made). -/
theorem checkWorkflowBackupRemove_relaunch_keeps_old_id :
    (checkWorkflowBackupRemove (exampleEnv noDbErr (wfOf "" "" none none) (some "connection refused"))
        (stateOf [backupOf "b1" "deleting" (some "y") 1000]) "db1").trace =
      [⟨Call.getMaterializedBackups "db1" 20 "" "deleting" false, true⟩,
       ⟨Call.getWorkflowInstance "y", false⟩,
       ⟨Call.getBackupSpec "db1", true⟩,
       ⟨Call.launchRemoveBackupWorkflow "db1" (some "data-b1") 60 none, true⟩] ∧
    ((exampleEnv noDbErr (wfOf "" "" none none) (some "connection refused")).launchRemoveBackupWorkflow
        3 "db1" (some "data-b1") 60 none = ("z", none)) ∧
    (checkWorkflowBackupRemove (exampleEnv noDbErr (wfOf "" "" none none) (some "connection refused"))
        (stateOf [backupOf "b1" "deleting" (some "y") 1000]) "db1").backups.map
        (fun mb => (mb.ID, mb.Status, mb.RunningDeleteWorkflowID)) =
      [("b1", "deleting", some "y")] := by
  decide

theorem listMaterialized_mem (rows : List MaterializedBackup) (name : String) (limit : Nat)
    (status : String) (ascending : Bool) (mb : MaterializedBackup)
    (h : mb ∈ listMaterialized rows name limit status ascending) :
    mb ∈ rows ∧ mb.BackupName = name ∧ (status = "" ∨ mb.Status = status) := by
  unfold listMaterialized at h
  have h1 := List.mem_of_mem_take h
  have h2 : mb ∈ rows.filter
      (fun mb => mb.BackupName = name ∧ (status = "" ∨ mb.Status = status)) := by
    split at h1
    · exact (List.perm_insertionSort _ _).mem_iff.1 h1
    · exact (List.perm_insertionSort _ _).mem_iff.1 h1
  simpa using List.mem_filter.1 h2

theorem forall₂_refl_of (R : MaterializedBackup → MaterializedBackup → Prop)
    (hR : ∀ a, R a a) (l : List MaterializedBackup) : List.Forall₂ R l l := by
  induction l with
  | nil => exact List.Forall₂.nil
  | cons a l ih => exact List.Forall₂.cons (hR a) ih

/-- Setting the status of the row `id` to a status of rank at least 1 keeps
`removeStep` when every row called `id` started in status `deleting`. -/
theorem removeStep_setStatusRows (l rows : List MaterializedBackup) (id s : String)
    (w : Option String) (hs : 1 ≤ statusRank s)
    (hl : ∀ a ∈ l, a.ID = id → a.Status = "deleting")
    (h : List.Forall₂ removeStep l rows) :
    List.Forall₂ removeStep l (setStatusRows rows id s w) := by
  unfold setStatusRows
  induction h with
  | nil => exact List.Forall₂.nil
  | @cons a b l rows hab _ ih =>
    simp only [List.map_cons]
    refine List.Forall₂.cons ?_ (ih (fun x hx => hl x (List.mem_cons_of_mem _ hx)))
    obtain ⟨h1, h2, h3⟩ := hab
    by_cases hb : b.ID = id
    · have ha : a.Status = "deleting" := hl a (List.mem_cons_self _ _) (h1 ▸ hb)
      rw [if_pos hb]
      refine ⟨h1, ?_, fun hne => absurd ha hne⟩
      simp only [ha]
      exact le_trans (by decide) hs
    · rw [if_neg hb]
      exact ⟨h1, h2, h3⟩

/-- Every change `checkWorkflowBackupRemoveItem` makes to the table is a status
update of the row `mb.ID` to `delete-error` or to `deleted`. -/
theorem checkWorkflowBackupRemoveItem_backups (env : Env) (st : State) (mb : MaterializedBackup)
    (P : List MaterializedBackup → Prop)
    (hP : ∀ rows s w, P rows → (s = "delete-error" ∨ s = "deleted") →
      P (setStatusRows rows mb.ID s w))
    (h : P st.backups) : P (checkWorkflowBackupRemoveItem env st mb).backups := by
  unfold checkWorkflowBackupRemoveItem
  cases hw : mb.RunningDeleteWorkflowID with
  | none => exact h
  | some wid =>
    simp only [getWorkflowInstance]
    generalize env.getWorkflowInstance st.tick wid = r
    obtain ⟨wf, err⟩ := r
    cases err with
    | some e =>
      simp only []
      rcases getBackupSpec_cases env (st.log (Call.getWorkflowInstance wid)
        (some e : Option String).isNone) mb.BackupName with ⟨bs, _, hg⟩ | ⟨e1, hg⟩
      · rw [hg]; simpa [launchRemoveBackupWorkflow] using h
      · rw [hg]; simpa using h
    | none =>
      simp only []
      by_cases hrun : wf.status = "RUNNING"
      · simpa [hrun] using h
      · simp only [hrun, if_false, setStatusMaterializedBackup_eq, State.log_tick,
          State.log_backups]
        by_cases hc : wf.status = "COMPLETED"
        · simp only [hc, ne_eq, not_true_eq_false, if_false]
          cases hd : env.dbErr (st.trace.length + 1) with
          | some e => simpa [State.tick, hd] using h
          | none => simpa [State.tick, hd] using hP _ "deleted" none h (Or.inr rfl)
        · simp only [hc, ne_eq, not_false_eq_true, if_true]
          cases hd : env.dbErr (st.trace.length + 1) with
          | some e => simpa [State.tick, hd] using h
          | none =>
            cases hd2 : env.dbErr (st.trace.length + 1 + 1) with
            | some e =>
              simpa [State.tick, hd, hd2] using hP _ "delete-error" (some wid) h (Or.inl rfl)
            | none =>
              simpa [State.tick, hd, hd2] using
                hP _ "deleted" none (hP _ "delete-error" (some wid) h (Or.inl rfl)) (Or.inr rfl)

/-- What a run of `triggerBackupDelete` does to the table: nothing when it
returns an error; otherwise the row `id` was `COMPLETED` with no delete
workflow and is set to `deleting` with the id of the launched workflow. -/
theorem triggerBackupDelete_backups (env : Env) (st : State) (id : String) :
    ((triggerBackupDelete env st id).2 ≠ none ∧
      (triggerBackupDelete env st id).1.backups = st.backups) ∨
    ((triggerBackupDelete env st id).2 = none ∧
      ∃ mb wid, st.backups.find? (fun b => b.ID = id) = some mb ∧ mb.Status = "COMPLETED" ∧
        mb.RunningDeleteWorkflowID = none ∧
        (triggerBackupDelete env st id).1.backups =
          setStatusRows st.backups id "deleting" (some wid)) := by
  unfold triggerBackupDelete getMaterializedBackup
  cases env.dbErr st.tick with
  | some e => simp
  | none =>
    simp only []
    cases hf : st.backups.find? (fun b => b.ID = id) with
    | none => simp
    | some mb =>
      simp only []
      by_cases hs : mb.Status = "COMPLETED"
      · by_cases hw : mb.RunningDeleteWorkflowID = none
        · simp only [hs, hw, ne_eq, not_true_eq_false, if_false]
          rcases getBackupSpec_cases env (st.log (Call.getMaterializedBackup id) true)
            mb.BackupName with ⟨bs, _, hg⟩ | ⟨e1, hg⟩
          · rw [hg]
            simp only [launchRemoveBackupWorkflow, State.log_tick]
            generalize env.launchRemoveBackupWorkflow (st.tick + 1 + 1) mb.BackupName mb.DataID
              bs.TimeoutSeconds bs.WorkerConfig = r
            obtain ⟨wid, err⟩ := r
            cases err with
            | some e => simp
            | none =>
              simp only [setStatusMaterializedBackup_eq, State.log_tick, State.log_backups]
              cases env.dbErr (st.tick + 1 + 1 + 1) with
              | some e => simp
              | none => exact Or.inr ⟨rfl, mb, wid, rfl, hs, hw, by simp⟩
          · rw [hg]; simp
        · simp [hs, hw]
      · simp [hs]

theorem eq_of_ID_eq (l : List MaterializedBackup) (hkey : (l.map (fun mb => mb.ID)).Nodup)
    (a b : MaterializedBackup) (ha : a ∈ l) (hb : b ∈ l) (h : a.ID = b.ID) : a = b :=
  List.inj_on_of_nodup_map hkey ha hb h

theorem foldl_item_removeStep (env : Env) (l0 : List MaterializedBackup)
    (hkey : (l0.map (fun mb => mb.ID)).Nodup) (mbs : List MaterializedBackup)
    (hm : ∀ mb ∈ mbs, mb ∈ l0 ∧ mb.Status = "deleting") :
    ∀ cur : State, List.Forall₂ removeStep l0 cur.backups →
      List.Forall₂ removeStep l0 (mbs.foldl (checkWorkflowBackupRemoveItem env) cur).backups := by
  induction mbs with
  | nil => intro cur h; exact h
  | cons mb mbs ih =>
    intro cur h
    simp only [List.foldl_cons]
    apply ih (fun x hx => hm x (List.mem_cons_of_mem _ hx))
    obtain ⟨hmem, hst⟩ := hm mb (List.mem_cons_self _ _)
    apply checkWorkflowBackupRemoveItem_backups env cur mb (List.Forall₂ removeStep l0) _ h
    intro rows s w hrows hs
    apply removeStep_setStatusRows l0 rows mb.ID s w _ _ hrows
    · rcases hs with rfl | rfl <;> decide
    · intro a ha hid
      rw [eq_of_ID_eq l0 hkey a mb ha hmem hid]
      exact hst

/-- C6: in a table whose ids are distinct (`id` is the primary key of
`materialized_backup`), `triggerBackupDelete` either returns an error and leaves
the table as it is, or it found the backup `COMPLETED` with no delete workflow
and sets it to `deleting`; `checkWorkflowBackupRemove` changes only rows that
are in status `deleting`; and neither lowers the rank of a status on the path
`COMPLETED → deleting → deleted`. -/
theorem delete_status_monotonic (env : Env) (st : State)
    (hkey : (st.backups.map (fun mb => mb.ID)).Nodup) :
    (∀ id,
      ((triggerBackupDelete env st id).2 ≠ none →
        (triggerBackupDelete env st id).1.backups = st.backups) ∧
      ((triggerBackupDelete env st id).2 = none →
        ∃ mb ∈ st.backups, mb.ID = id ∧ mb.Status = "COMPLETED" ∧
          mb.RunningDeleteWorkflowID = none) ∧
      List.Forall₂ triggerStep st.backups (triggerBackupDelete env st id).1.backups) ∧
    (∀ name,
      List.Forall₂ removeStep st.backups (checkWorkflowBackupRemove env st name).backups) := by
  constructor
  · intro id
    rcases triggerBackupDelete_backups env st id with ⟨herr, hb⟩ | ⟨herr, mb, wid, hf, hs, hw, hb⟩
    · refine ⟨fun _ => hb, fun h => absurd h herr, ?_⟩
      rw [hb]
      exact forall₂_refl_of _ (fun a => ⟨rfl, le_refl _, fun h => absurd rfl h⟩) _
    · have hmem : mb ∈ st.backups := List.mem_of_find?_eq_some hf
      have hid : mb.ID = id := by simpa using List.find?_some hf
      refine ⟨fun h => absurd herr h, fun _ => ⟨mb, hmem, hid, hs, hw⟩, ?_⟩
      rw [hb]
      unfold setStatusRows
      rw [List.forall₂_map_right_iff, List.forall₂_same]
      intro x hx
      by_cases hxid : x.ID = id
      · have hxmb : x = mb := eq_of_ID_eq st.backups hkey x mb hx hmem (hxid.trans hid.symm)
        rw [if_pos hxid]
        subst hxmb
        refine ⟨rfl, ?_, fun _ => ⟨hs, hw, rfl⟩⟩
        simp only [hs]
        decide
      · rw [if_neg hxid]
        exact ⟨rfl, le_refl _, fun h => absurd rfl h⟩
  · intro name
    unfold checkWorkflowBackupRemove
    simp only [getMaterializedBackups_eq]
    cases hd : env.dbErr st.tick with
    | some e =>
      simp only [State.log_backups]
      exact forall₂_refl_of _ (fun a => ⟨rfl, le_refl _, fun _ => rfl⟩) _
    | none =>
      simp only [Option.isNone_none, if_true]
      apply foldl_item_removeStep env st.backups hkey
      · intro mb hmb
        obtain ⟨h1, _, h3⟩ := listMaterialized_mem _ _ _ _ _ _ hmb
        refine ⟨h1, ?_⟩
        rcases h3 with h | h
        · exact absurd h (by decide)
        · exact h
      · simp only [State.log_backups]
        exact forall₂_refl_of _ (fun a => ⟨rfl, le_refl _, fun _ => rfl⟩) _

/-- C6 at a concrete input: a table with `b1` COMPLETED and `b2` in status
`deleting` (ids distinct), the delete workflow reported as FAILED. -/
theorem delete_status_monotonic_witness :
    ((stateOf [backupOf "b1" "COMPLETED" none 1000,
        backupOf "b2" "deleting" (some "y") 2000]).backups.map (fun mb => mb.ID)).Nodup ∧
    List.Forall₂ triggerStep
      (stateOf [backupOf "b1" "COMPLETED" none 1000,
        backupOf "b2" "deleting" (some "y") 2000]).backups
      (triggerBackupDelete (exampleEnv noDbErr (wfOf "y" "FAILED" none none) none)
        (stateOf [backupOf "b1" "COMPLETED" none 1000,
          backupOf "b2" "deleting" (some "y") 2000]) "b1").1.backups ∧
    List.Forall₂ removeStep
      (stateOf [backupOf "b1" "COMPLETED" none 1000,
        backupOf "b2" "deleting" (some "y") 2000]).backups
      (checkWorkflowBackupRemove (exampleEnv noDbErr (wfOf "y" "FAILED" none none) none)
        (stateOf [backupOf "b1" "COMPLETED" none 1000,
          backupOf "b2" "deleting" (some "y") 2000]) "db1").backups :=
  ⟨by decide,
    ((delete_status_monotonic (exampleEnv noDbErr (wfOf "y" "FAILED" none none) none)
      (stateOf [backupOf "b1" "COMPLETED" none 1000, backupOf "b2" "deleting" (some "y") 2000])
      (by decide)).1 "b1").2.2,
    (delete_status_monotonic (exampleEnv noDbErr (wfOf "y" "FAILED" none none) none)
      (stateOf [backupOf "b1" "COMPLETED" none 1000, backupOf "b2" "deleting" (some "y") 2000])
      (by decide)).2 "db1"⟩

/-! ## `tagAllBackups` -/

/-- C7 at a failing input: spec `db1` (monthly retention `3@L`) with two
COMPLETED backups and no store failure.  The hourly, daily, weekly and yearly
calls have the shape `(tag, parentTag, bucketFormat, positionFormat, name,
ref)`, but the monthly call is made with the backup name in the place of the
tag: `("db1", "monthly", "daily", "%Y-%m-0T0:0:0.000", "%d", "31")`. -/
theorem tagAllBackups_monthly_call_shape :
    eventsSince (stateOf [backupOf "b1" "COMPLETED" none 1000, backupOf "b2" "COMPLETED" none 2000])
      (tagAllBackups (exampleEnv noDbErr (wfOf "" "" none none) none)
        (stateOf [backupOf "b1" "COMPLETED" none 1000, backupOf "b2" "COMPLETED" none 2000])
        "db1").1 =
      [⟨Call.getBackupSpec "db1", true⟩,
       ⟨Call.dbBegin, true⟩,
       ⟨Call.getMaterializedBackups "db1" 1 "" "COMPLETED" false, true⟩,
       ⟨Call.clearTagsAndReferenceMaterializedBackup, true⟩,
       ⟨Call.markReferencesMinutelyMaterializedBackup "db1" "L", true⟩,
       ⟨Call.markTagMaterializedBackup "hourly" "minutely" "%Y-%m-%dT%H:0:0.000" "%M" "db1" "L",
         true⟩,
       ⟨Call.markTagMaterializedBackup "daily" "hourly" "%Y-%m-%w-%dT0:0:0.000" "%H" "db1" "L",
         true⟩,
       ⟨Call.markTagMaterializedBackup "weekly" "daily" "%Y-%m-%W-0T0:0:0.000" "%w" "db1" "L",
         true⟩,
       ⟨Call.markTagMaterializedBackup "db1" "monthly" "daily" "%Y-%m-0T0:0:0.000" "%d" "31",
         true⟩,
       ⟨Call.markTagMaterializedBackup "yearly" "monthly" "%Y-0-0T0:0:0.000" "%m" "db1" "L",
         true⟩,
       ⟨Call.setAllTagsMaterializedBackup "b2", true⟩,
       ⟨Call.txCommit, true⟩] := by
  decide

/-- C9 at a failing input: spec `db1` with the one COMPLETED backup `b1`, not
tagged yet; inside `tagAllBackups` the minutely marking (call number 6) fails
and the transaction is rolled back.  `RunRetentionTask` goes on all the same:
the seven election queries are made, `b1` is elected by the untagged sweep and
`triggerBackupDelete` sets it to `deleting`. -/
theorem RunRetentionTask_elects_after_failed_tagging :
    (RunRetentionTask (exampleEnv (dbErrAt 6) (wfOf "" "" none none) none)
        (stateOf [backupOf "b1" "COMPLETED" none 1000]) "db1").trace =
      [⟨Call.mutexLock 1, true⟩,
       ⟨Call.getBackupSpec "db1", true⟩,
       ⟨Call.getBackupSpec "db1", true⟩,
       ⟨Call.dbBegin, true⟩,
       ⟨Call.getMaterializedBackups "db1" 1 "" "COMPLETED" false, true⟩,
       ⟨Call.clearTagsAndReferenceMaterializedBackup, true⟩,
       ⟨Call.markReferencesMinutelyMaterializedBackup "db1" "L", false⟩,
       ⟨Call.txRollback, true⟩,
       ⟨Call.getExclusiveTagAvailableMaterializedBackups "db1" "" 0 30, true⟩,
       ⟨Call.getExclusiveTagAvailableMaterializedBackups "db1" "minutely" 0 30, true⟩,
       ⟨Call.getExclusiveTagAvailableMaterializedBackups "db1" "hourly" 0 30, true⟩,
       ⟨Call.getExclusiveTagAvailableMaterializedBackups "db1" "daily" 4 30, true⟩,
       ⟨Call.getExclusiveTagAvailableMaterializedBackups "db1" "weekly" 4 30, true⟩,
       ⟨Call.getExclusiveTagAvailableMaterializedBackups "db1" "monthly" 3 30, true⟩,
       ⟨Call.getExclusiveTagAvailableMaterializedBackups "db1" "yearly" 2 30, true⟩,
       ⟨Call.getMaterializedBackup "b1", true⟩,
       ⟨Call.getBackupSpec "db1", true⟩,
       ⟨Call.launchRemoveBackupWorkflow "db1" (some "data-b1") 60 none, true⟩,
       ⟨Call.setStatusMaterializedBackup "b1" "deleting" (some "z"), true⟩,
       ⟨Call.mutexUnlock 1, true⟩] ∧
    (RunRetentionTask (exampleEnv (dbErrAt 6) (wfOf "" "" none none) none)
        (stateOf [backupOf "b1" "COMPLETED" none 1000]) "db1").backups.map
        (fun mb => (mb.ID, mb.Status, mb.RunningDeleteWorkflowID)) =
      [("b1", "deleting", some "z")] := by
  decide

/-- What `tagAllBackups` does when a call fails: it returns an error, the
transaction is not committed and the table of materialized backups is what it
was.  When the failing call comes after a successful `db.Begin()` the last
call of the run is `tx.Rollback()`: on the open transaction when the failure
came before the commit, and on the transaction that `Commit` has already
finished, where it returns `ErrTxDone`, when the commit failed.  The
transaction is committed only when every call of the run succeeded. -/
theorem tagAllBackups_rollback_on_failure (env : Env) (st : State) (backupName : String) :
    ((∃ e ∈ eventsSince st (tagAllBackups env st backupName).1, e.ok = false) →
      (tagAllBackups env st backupName).2 ≠ none ∧
      (⟨Call.txCommit, true⟩ : Event) ∉ eventsSince st (tagAllBackups env st backupName).1 ∧
      (tagAllBackups env st backupName).1.backups = st.backups ∧
      ((⟨Call.dbBegin, true⟩ : Event) ∈ eventsSince st (tagAllBackups env st backupName).1 →
        (⟨Call.txCommit, false⟩ : Event) ∉ eventsSince st (tagAllBackups env st backupName).1 →
        (eventsSince st (tagAllBackups env st backupName).1).getLast? =
          some ⟨Call.txRollback, true⟩) ∧
      ((⟨Call.txCommit, false⟩ : Event) ∈ eventsSince st (tagAllBackups env st backupName).1 →
        (eventsSince st (tagAllBackups env st backupName).1).getLast? =
          some ⟨Call.txRollback, false⟩)) ∧
    ((⟨Call.txCommit, true⟩ : Event) ∈ eventsSince st (tagAllBackups env st backupName).1 →
      (∀ e ∈ eventsSince st (tagAllBackups env st backupName).1, e.ok = true) ∧
      (tagAllBackups env st backupName).2 = none) := by
  unfold tagAllBackups
  have h0 := getBackupSpec_fst env st backupName
  generalize getBackupSpec env st backupName = g at h0 ⊢
  obtain ⟨st0, bs, err0⟩ := g
  simp only at h0
  subst h0
  simp only [dbBegin_eq, getMaterializedBackups_eq, clearTagsAndReferenceMaterializedBackup,
    markReferencesMinutelyMaterializedBackup, markTagMaterializedBackup,
    setAllTagsMaterializedBackup, txExec_eq, txCommit_eq, txRollback, State.log_tick]
  repeat' split
  all_goals simp only [Prod.mk.injEq] at *
  all_goals casesm* _ ∧ _
  all_goals subst_vars
  all_goals simp_all [eventsSince]

/-- The failure of a call before the commit, at a concrete input: the hourly
marking (call number 5) fails and the open transaction is rolled back. -/
theorem tagAllBackups_rollback_on_failure_witness :
    (∃ e ∈ eventsSince (stateOf [backupOf "b1" "COMPLETED" none 1000])
        (tagAllBackups (exampleEnv (dbErrAt 5) (wfOf "" "" none none) none)
          (stateOf [backupOf "b1" "COMPLETED" none 1000]) "db1").1, e.ok = false) ∧
    (tagAllBackups (exampleEnv (dbErrAt 5) (wfOf "" "" none none) none)
      (stateOf [backupOf "b1" "COMPLETED" none 1000]) "db1").2 ≠ none ∧
    (⟨Call.txCommit, true⟩ : Event) ∉ eventsSince (stateOf [backupOf "b1" "COMPLETED" none 1000])
      (tagAllBackups (exampleEnv (dbErrAt 5) (wfOf "" "" none none) none)
        (stateOf [backupOf "b1" "COMPLETED" none 1000]) "db1").1 ∧
    (eventsSince (stateOf [backupOf "b1" "COMPLETED" none 1000])
      (tagAllBackups (exampleEnv (dbErrAt 5) (wfOf "" "" none none) none)
        (stateOf [backupOf "b1" "COMPLETED" none 1000]) "db1").1).getLast? =
      some ⟨Call.txRollback, true⟩ :=
  have hfail : ∃ e ∈ eventsSince (stateOf [backupOf "b1" "COMPLETED" none 1000])
      (tagAllBackups (exampleEnv (dbErrAt 5) (wfOf "" "" none none) none)
        (stateOf [backupOf "b1" "COMPLETED" none 1000]) "db1").1, e.ok = false :=
    ⟨⟨Call.markTagMaterializedBackup "hourly" "minutely" "%Y-%m-%dT%H:0:0.000" "%M" "db1" "L",
      false⟩, by decide, rfl⟩
  have h := (tagAllBackups_rollback_on_failure (exampleEnv (dbErrAt 5) (wfOf "" "" none none) none)
    (stateOf [backupOf "b1" "COMPLETED" none 1000]) "db1").1 hfail
  ⟨hfail, h.1, h.2.1, h.2.2.2.1 (by decide) (by decide)⟩

/-- C8 at a failing input: spec `db1` with one COMPLETED backup `b1`; every
call up to `setAllTags` succeeds and `tx.Commit()` (call number 11) fails.
`tagAllBackups` returns an error and nothing is committed, but the
`tx.Rollback()` it then calls comes after `Commit` has finished the
transaction: it returns `ErrTxDone` and rolls nothing back. -/
theorem tagAllBackups_failed_commit_not_rolled_back :
    eventsSince (stateOf [backupOf "b1" "COMPLETED" none 1000])
      (tagAllBackups (exampleEnv (dbErrAt 11) (wfOf "" "" none none) none)
        (stateOf [backupOf "b1" "COMPLETED" none 1000]) "db1").1 =
      [⟨Call.getBackupSpec "db1", true⟩,
       ⟨Call.dbBegin, true⟩,
       ⟨Call.getMaterializedBackups "db1" 1 "" "COMPLETED" false, true⟩,
       ⟨Call.clearTagsAndReferenceMaterializedBackup, true⟩,
       ⟨Call.markReferencesMinutelyMaterializedBackup "db1" "L", true⟩,
       ⟨Call.markTagMaterializedBackup "hourly" "minutely" "%Y-%m-%dT%H:0:0.000" "%M" "db1" "L",
         true⟩,
       ⟨Call.markTagMaterializedBackup "daily" "hourly" "%Y-%m-%w-%dT0:0:0.000" "%H" "db1" "L",
         true⟩,
       ⟨Call.markTagMaterializedBackup "weekly" "daily" "%Y-%m-%W-0T0:0:0.000" "%w" "db1" "L",
         true⟩,
       ⟨Call.markTagMaterializedBackup "db1" "monthly" "daily" "%Y-%m-0T0:0:0.000" "%d" "31",
         true⟩,
       ⟨Call.markTagMaterializedBackup "yearly" "monthly" "%Y-0-0T0:0:0.000" "%m" "db1" "L",
         true⟩,
       ⟨Call.setAllTagsMaterializedBackup "b1", true⟩,
       ⟨Call.txCommit, false⟩,
       ⟨Call.txRollback, false⟩] ∧
    (tagAllBackups (exampleEnv (dbErrAt 11) (wfOf "" "" none none) none)
      (stateOf [backupOf "b1" "COMPLETED" none 1000]) "db1").2 =
      some "Error commiting transation" ∧
    (tagAllBackups (exampleEnv (dbErrAt 11) (wfOf "" "" none none) none)
      (stateOf [backupOf "b1" "COMPLETED" none 1000]) "db1").1.backups =
      (stateOf [backupOf "b1" "COMPLETED" none 1000]).backups := by
  decide

theorem setAllTagsRows_flags (id : String) (rows : List MaterializedBackup)
    (mb : MaterializedBackup) (h : mb ∈ setAllTagsRows id rows) (hid : mb.ID = id) :
    allTagsSet mb := by
  unfold setAllTagsRows at h
  obtain ⟨x, _, rfl⟩ := List.mem_map.1 h
  by_cases hx : x.ID = id
  · rw [if_pos hx]
    exact ⟨rfl, rfl, rfl, rfl, rfl, rfl⟩
  · rw [if_neg hx] at hid
    exact absurd hid hx

theorem setAllTagsRows_ids (id : String) (rows : List MaterializedBackup) :
    (setAllTagsRows id rows).map (fun mb => mb.ID) = rows.map (fun mb => mb.ID) := by
  unfold setAllTagsRows
  rw [List.map_map]
  apply List.map_congr_left
  intro x _
  simp only [Function.comp]
  split <;> rfl

/-- The first row of `listMaterialized` in descending order is a row of the
given name and status whose `EndTime` is the largest among them. -/
theorem listMaterialized_head_newest (rows : List MaterializedBackup) (name status : String)
    (limit : Nat) (mb : MaterializedBackup) (rest : List MaterializedBackup)
    (h : listMaterialized rows name limit status false = mb :: rest) :
    mb ∈ rows ∧ mb.BackupName = name ∧ (status = "" ∨ mb.Status = status) ∧
    ∀ x ∈ rows, x.BackupName = name → (status = "" ∨ x.Status = status) →
      x.EndTime ≤ mb.EndTime := by
  obtain ⟨h1, h2, h3⟩ := listMaterialized_mem rows name limit status false mb
    (by rw [h]; exact List.mem_cons_self _ _)
  refine ⟨h1, h2, h3, ?_⟩
  intro x hx hn hs
  unfold listMaterialized at h
  simp only [Bool.false_eq_true, if_false] at h
  haveI : IsTotal MaterializedBackup (fun a b => b.EndTime ≤ a.EndTime) :=
    ⟨fun a b => le_total b.EndTime a.EndTime⟩
  haveI : IsTrans MaterializedBackup (fun a b => b.EndTime ≤ a.EndTime) :=
    ⟨fun a b c hab hbc => le_trans hbc hab⟩
  have hsorted := List.sorted_insertionSort (fun a b : MaterializedBackup => b.EndTime ≤ a.EndTime)
    (rows.filter (fun mb => mb.BackupName = name ∧ (status = "" ∨ mb.Status = status)))
  have hxmem : x ∈ List.insertionSort (fun a b : MaterializedBackup => b.EndTime ≤ a.EndTime)
      (rows.filter (fun mb => mb.BackupName = name ∧ (status = "" ∨ mb.Status = status))) := by
    rw [(List.perm_insertionSort _ _).mem_iff]
    exact List.mem_filter.2 ⟨hx, by simpa using ⟨hn, hs⟩⟩
  generalize List.insertionSort (fun a b : MaterializedBackup => b.EndTime ≤ a.EndTime)
    (rows.filter (fun mb => mb.BackupName = name ∧ (status = "" ∨ mb.Status = status))) = l
    at h hsorted hxmem
  cases l with
  | nil => simp at hxmem
  | cons a l =>
    cases limit with
    | zero => simp at h
    | succ k =>
      simp only [List.take_succ_cons, List.cons.injEq] at h
      obtain ⟨rfl, _⟩ := h
      rcases List.mem_cons.1 hxmem with rfl | hxl
      · exact le_refl _
      · exact List.rel_of_sorted_cons hsorted x hxl

/-- C10: a run of `tagAllBackups` that returns no error, on a store whose
newest COMPLETED backup of `backupName` is `lastBackup`, makes exactly these
calls in this order, all successful: the spec read, `Begin`, the read of the
newest COMPLETED backup, the clearing of all tags, the minutely marking, the
five bucket markings, `setAllTags` on `lastBackup.ID`, and `Commit`.  The
committed table is the result of `setAllTags`, so every row with that id has
all six tag flags set (and there is such a row when the bucket queries keep
the rows of the table). -/
theorem tagAllBackups_success_order (env : Env) (st : State) (backupName : String)
    (lastBackup : MaterializedBackup) (rest : List MaterializedBackup)
    (herr : (tagAllBackups env st backupName).2 = none)
    (hlast : listMaterialized st.backups backupName 1 "COMPLETED" false = lastBackup :: rest) :
    (∃ bs, st.specs.find? (fun b => b.Name = backupName) = some bs ∧
      eventsSince st (tagAllBackups env st backupName).1 =
        [⟨Call.getBackupSpec backupName, true⟩,
         ⟨Call.dbBegin, true⟩,
         ⟨Call.getMaterializedBackups backupName 1 "" "COMPLETED" false, true⟩,
         ⟨Call.clearTagsAndReferenceMaterializedBackup, true⟩,
         ⟨Call.markReferencesMinutelyMaterializedBackup backupName (paramAt bs.MinutelyParams 1),
           true⟩,
         ⟨Call.markTagMaterializedBackup "hourly" "minutely" "%Y-%m-%dT%H:0:0.000" "%M"
           backupName (paramAt bs.HourlyParams 1), true⟩,
         ⟨Call.markTagMaterializedBackup "daily" "hourly" "%Y-%m-%w-%dT0:0:0.000" "%H"
           backupName (paramAt bs.DailyParams 1), true⟩,
         ⟨Call.markTagMaterializedBackup "weekly" "daily" "%Y-%m-%W-0T0:0:0.000" "%w"
           backupName (paramAt bs.WeeklyParams 1), true⟩,
         ⟨Call.markTagMaterializedBackup backupName "monthly" "daily" "%Y-%m-0T0:0:0.000" "%d"
           (if paramAt bs.MonthlyParams 1 = "L" then "31" else paramAt bs.MonthlyParams 1), true⟩,
         ⟨Call.markTagMaterializedBackup "yearly" "monthly" "%Y-0-0T0:0:0.000" "%m"
           backupName (paramAt bs.YearlyParams 1), true⟩,
         ⟨Call.setAllTagsMaterializedBackup lastBackup.ID, true⟩,
         ⟨Call.txCommit, true⟩] ∧
      (tagAllBackups env st backupName).1.backups =
        setAllTagsRows lastBackup.ID
          (env.markTag "yearly" "monthly" "%Y-0-0T0:0:0.000" "%m" backupName
            (paramAt bs.YearlyParams 1)
          (env.markTag backupName "monthly" "daily" "%Y-%m-0T0:0:0.000" "%d"
            (if paramAt bs.MonthlyParams 1 = "L" then "31" else paramAt bs.MonthlyParams 1)
          (env.markTag "weekly" "daily" "%Y-%m-%W-0T0:0:0.000" "%w" backupName
            (paramAt bs.WeeklyParams 1)
          (env.markTag "daily" "hourly" "%Y-%m-%w-%dT0:0:0.000" "%H" backupName
            (paramAt bs.DailyParams 1)
          (env.markTag "hourly" "minutely" "%Y-%m-%dT%H:0:0.000" "%M" backupName
            (paramAt bs.HourlyParams 1)
          (env.markReferencesMinutely backupName (paramAt bs.MinutelyParams 1)
          (env.clearTagsAndReference st.backups)))))))) ∧
    (∀ mb ∈ (tagAllBackups env st backupName).1.backups, mb.ID = lastBackup.ID → allTagsSet mb) ∧
    (env.keepsIDs →
      ∃ mb ∈ (tagAllBackups env st backupName).1.backups, mb.ID = lastBackup.ID ∧ allTagsSet mb) ∧
    (lastBackup ∈ st.backups ∧ lastBackup.BackupName = backupName ∧
      lastBackup.Status = "COMPLETED" ∧
      ∀ x ∈ st.backups, x.BackupName = backupName → x.Status = "COMPLETED" →
        x.EndTime ≤ lastBackup.EndTime) := by
  have hmain : ∃ bs, st.specs.find? (fun b => b.Name = backupName) = some bs ∧
      eventsSince st (tagAllBackups env st backupName).1 =
        [⟨Call.getBackupSpec backupName, true⟩,
         ⟨Call.dbBegin, true⟩,
         ⟨Call.getMaterializedBackups backupName 1 "" "COMPLETED" false, true⟩,
         ⟨Call.clearTagsAndReferenceMaterializedBackup, true⟩,
         ⟨Call.markReferencesMinutelyMaterializedBackup backupName (paramAt bs.MinutelyParams 1),
           true⟩,
         ⟨Call.markTagMaterializedBackup "hourly" "minutely" "%Y-%m-%dT%H:0:0.000" "%M"
           backupName (paramAt bs.HourlyParams 1), true⟩,
         ⟨Call.markTagMaterializedBackup "daily" "hourly" "%Y-%m-%w-%dT0:0:0.000" "%H"
           backupName (paramAt bs.DailyParams 1), true⟩,
         ⟨Call.markTagMaterializedBackup "weekly" "daily" "%Y-%m-%W-0T0:0:0.000" "%w"
           backupName (paramAt bs.WeeklyParams 1), true⟩,
         ⟨Call.markTagMaterializedBackup backupName "monthly" "daily" "%Y-%m-0T0:0:0.000" "%d"
           (if paramAt bs.MonthlyParams 1 = "L" then "31" else paramAt bs.MonthlyParams 1), true⟩,
         ⟨Call.markTagMaterializedBackup "yearly" "monthly" "%Y-0-0T0:0:0.000" "%m"
           backupName (paramAt bs.YearlyParams 1), true⟩,
         ⟨Call.setAllTagsMaterializedBackup lastBackup.ID, true⟩,
         ⟨Call.txCommit, true⟩] ∧
      (tagAllBackups env st backupName).1.backups =
        setAllTagsRows lastBackup.ID
          (env.markTag "yearly" "monthly" "%Y-0-0T0:0:0.000" "%m" backupName
            (paramAt bs.YearlyParams 1)
          (env.markTag backupName "monthly" "daily" "%Y-%m-0T0:0:0.000" "%d"
            (if paramAt bs.MonthlyParams 1 = "L" then "31" else paramAt bs.MonthlyParams 1)
          (env.markTag "weekly" "daily" "%Y-%m-%W-0T0:0:0.000" "%w" backupName
            (paramAt bs.WeeklyParams 1)
          (env.markTag "daily" "hourly" "%Y-%m-%w-%dT0:0:0.000" "%H" backupName
            (paramAt bs.DailyParams 1)
          (env.markTag "hourly" "minutely" "%Y-%m-%dT%H:0:0.000" "%M" backupName
            (paramAt bs.HourlyParams 1)
          (env.markReferencesMinutely backupName (paramAt bs.MinutelyParams 1)
          (env.clearTagsAndReference st.backups))))))) := by
    unfold tagAllBackups at herr ⊢
    rcases getBackupSpec_cases env st backupName with ⟨bs, hf, hg⟩ | ⟨e, hg⟩
    · have hname : bs.Name = backupName := by simpa using List.find?_some hf
      refine ⟨bs, hf, ?_⟩
      rw [hg] at herr ⊢
      simp only [dbBegin_eq, getMaterializedBackups_eq, clearTagsAndReferenceMaterializedBackup,
        markReferencesMinutelyMaterializedBackup, markTagMaterializedBackup,
        setAllTagsMaterializedBackup, txExec_eq, txCommit_eq, txRollback, State.log_tick,
        State.log_backups, hname] at herr ⊢
      revert herr
      repeat' split
      all_goals simp only [Prod.mk.injEq] at *
      all_goals casesm* _ ∧ _
      all_goals subst_vars
      all_goals simp_all [eventsSince]
    · rw [hg] at herr
      simp at herr
  obtain ⟨bs, hf, hev, hb⟩ := hmain
  obtain ⟨k1, k2, k3, k4⟩ := listMaterialized_head_newest _ _ _ _ _ _ hlast
  have k3' : lastBackup.Status = "COMPLETED" := by
    rcases k3 with h | h
    · exact absurd h (by decide)
    · exact h
  refine ⟨⟨bs, hf, hev, hb⟩, ?_, ?_, k1, k2, k3', fun x hx hn hs => k4 x hx hn (Or.inr hs)⟩
  · intro mb hmb hid
    rw [hb] at hmb
    exact setAllTagsRows_flags _ _ mb hmb hid
  · intro hk
    obtain ⟨c1, c2, c3⟩ := hk
    have hids : ((tagAllBackups env st backupName).1.backups).map (fun mb => mb.ID) =
        st.backups.map (fun mb => mb.ID) := by
      rw [hb, setAllTagsRows_ids, c3, c3, c3, c3, c3, c2, c1]
    have hin : lastBackup.ID ∈ ((tagAllBackups env st backupName).1.backups).map
        (fun mb => mb.ID) := by
      rw [hids]
      exact List.mem_map.2 ⟨lastBackup, k1, rfl⟩
    obtain ⟨mb, hmb, hid⟩ := List.mem_map.1 hin
    refine ⟨mb, hmb, hid, ?_⟩
    rw [hb] at hmb
    exact setAllTagsRows_flags _ _ mb hmb hid

/-- C10 at a concrete input: spec `db1` with COMPLETED backups `b1` (older) and
`b2` (newest), no store failure. -/
theorem tagAllBackups_success_order_witness :
    (tagAllBackups (exampleEnv noDbErr (wfOf "" "" none none) none)
      (stateOf [backupOf "b1" "COMPLETED" none 1000, backupOf "b2" "COMPLETED" none 2000])
      "db1").2 = none ∧
    listMaterialized
      (stateOf [backupOf "b1" "COMPLETED" none 1000, backupOf "b2" "COMPLETED" none 2000]).backups
      "db1" 1 "COMPLETED" false = [backupOf "b2" "COMPLETED" none 2000] ∧
    ∃ mb ∈ (tagAllBackups (exampleEnv noDbErr (wfOf "" "" none none) none)
      (stateOf [backupOf "b1" "COMPLETED" none 1000, backupOf "b2" "COMPLETED" none 2000])
      "db1").1.backups, mb.ID = (backupOf "b2" "COMPLETED" none 2000).ID ∧ allTagsSet mb :=
  ⟨by decide, by decide,
    (tagAllBackups_success_order (exampleEnv noDbErr (wfOf "" "" none none) none)
      (stateOf [backupOf "b1" "COMPLETED" none 1000, backupOf "b2" "COMPLETED" none 2000])
      "db1" (backupOf "b2" "COMPLETED" none 2000) [] (by decide) (by decide)).2.2.1
      ⟨fun rows => by simp [exampleEnv, clearTagsRows, List.map_map, Function.comp],
        fun _ _ _ => rfl, fun _ _ _ _ _ _ _ => rfl⟩⟩

/-! ## The election of `RunRetentionTask` -/

theorem appendElectedForTag_snd (env : Env) (st : State) (backupName tag count : String)
    (acc : List MaterializedBackup) :
    (appendElectedForTag env st backupName tag count acc).2 =
      acc ++ tagContribution env backupName st.backups st.tick tag count := by
  unfold appendElectedForTag tagContribution getExclusiveTagAvailableMaterializedBackups
  cases Atoi count with
  | none => simp
  | some ret => cases env.dbErr st.tick <;> simp

theorem appendElectedForTag_fst (env : Env) (st : State) (backupName tag count : String)
    (acc : List MaterializedBackup) :
    (appendElectedForTag env st backupName tag count acc).1.backups = st.backups ∧
    (appendElectedForTag env st backupName tag count acc).1.tick =
      (if (Atoi count).isSome then st.tick + 1 else st.tick) := by
  unfold appendElectedForTag getExclusiveTagAvailableMaterializedBackups
  cases Atoi count with
  | none => simp
  | some ret => cases env.dbErr st.tick <;> simp

theorem electBackups_snd (env : Env) (st : State) (backupName : String) (bs : BackupSpec) :
    (electBackups env st backupName bs).2 =
      electedConcat env backupName st.backups st.tick (electionTags bs) := by
  simp only [electBackups, electionTags, electedConcat, appendElectedForTag_snd,
    (appendElectedForTag_fst _ _ _ _ _ _).1, (appendElectedForTag_fst _ _ _ _ _ _).2,
    List.nil_append, List.append_nil, List.append_assoc]

theorem RunRetentionTaskLocked_eq (env : Env) (st : State) (backupName : String)
    (bs : BackupSpec) (hdb : env.dbErr st.tick = none)
    (hfind : st.specs.find? (fun b => b.Name = backupName) = some bs) :
    RunRetentionTaskLocked env st backupName =
      deleteElected env
        (electBackups env (tagAllBackups env (st.log (.getBackupSpec backupName) true)
          backupName).1 backupName bs).1
        (electBackups env (tagAllBackups env (st.log (.getBackupSpec backupName) true)
          backupName).1 backupName bs).2 := by
  unfold RunRetentionTaskLocked getBackupSpec
  simp only [hdb, hfind]
  rfl

/-- `retentionLock` returns the same mutex on a later call with the same name,
and leaves the map as the first call left it. -/
theorem retentionLock_again (st : State) (backupName : String) (c : Call) (ok : Bool) :
    retentionLock ((retentionLock st backupName).1.log c ok) backupName =
      ((retentionLock st backupName).1.log c ok, (retentionLock st backupName).2) := by
  unfold retentionLock
  cases h : st.retentionLocks.lookup backupName with
  | some m => simp [h]
  | none => simp [List.lookup_append, h, List.lookup]

theorem retentionLocked_eq (st : State) (backupName : String) :
    retentionLocked st backupName =
      (retentionLock st backupName).1.log (.mutexLock (retentionLock st backupName).2) true := by
  unfold retentionLocked
  rw [retentionLock_again]

theorem retentionLock_fst (st : State) (backupName : String) :
    (retentionLock st backupName).1.specs = st.specs ∧
    (retentionLock st backupName).1.backups = st.backups ∧
    (retentionLock st backupName).1.trace = st.trace := by
  unfold retentionLock
  cases st.retentionLocks.lookup backupName <;> simp

theorem RunRetentionTask_eq (env : Env) (st : State) (backupName : String) :
    RunRetentionTask env st backupName =
      (RunRetentionTaskLocked env (retentionLocked st backupName) backupName).1.log
        (.mutexUnlock (retentionLock st backupName).2) true := by
  unfold RunRetentionTask
  rw [retentionLocked_eq]
  simp only [retentionLock_again]

/-- The calls of `triggerBackupDelete(id)`: `getMaterializedBackup` is called
once, first, with `id`. -/
theorem triggerBackupDelete_trace (env : Env) (st : State) (id : String) :
    ∃ evs, (triggerBackupDelete env st id).1.trace = st.trace ++ evs ∧
      triggeredIDs evs = [id] := by
  unfold triggerBackupDelete getMaterializedBackup
  cases env.dbErr st.tick with
  | some e => exact ⟨_, rfl, by simp [triggeredIDs]⟩
  | none =>
    simp only []
    cases st.backups.find? (fun b => b.ID = id) with
    | none => exact ⟨_, rfl, by simp [triggeredIDs]⟩
    | some mb =>
      simp only []
      split
      · exact ⟨_, rfl, by simp [triggeredIDs]⟩
      · split
        · exact ⟨_, rfl, by simp [triggeredIDs]⟩
        · rcases getBackupSpec_cases env (st.log (Call.getMaterializedBackup id) true)
            mb.BackupName with ⟨bs, _, hg⟩ | ⟨e1, hg⟩
          · rw [hg]
            simp only [launchRemoveBackupWorkflow, State.log_tick]
            generalize env.launchRemoveBackupWorkflow (st.tick + 1 + 1) mb.BackupName mb.DataID
              bs.TimeoutSeconds bs.WorkerConfig = r
            obtain ⟨wid, err⟩ := r
            cases err with
            | some e => exact ⟨_, by simp; rfl, by simp [triggeredIDs]⟩
            | none =>
              simp only [setStatusMaterializedBackup_eq, State.log_tick]
              cases env.dbErr (st.tick + 1 + 1 + 1) with
              | some e => exact ⟨_, by simp; rfl, by simp [triggeredIDs]⟩
              | none => exact ⟨_, by simp; rfl, by simp [triggeredIDs]⟩
          · rw [hg]
            exact ⟨_, by simp; rfl, by simp [triggeredIDs]⟩

/-- The delete loop calls `triggerBackupDelete` on the elected backups in
order, on all of them unless it ends by the panic. -/
theorem deleteElected_trace (env : Env) (l : List MaterializedBackup) :
    ∀ st : State, ∃ evs k,
      (deleteElected env st l).1.trace = st.trace ++ evs ∧
      triggeredIDs evs = (l.map (fun mb => mb.ID)).take k ∧
      ((deleteElected env st l).2 = false → k = l.length) := by
  induction l with
  | nil => intro st; exact ⟨[], 0, by simp [deleteElected, triggeredIDs]⟩
  | cons b rest ih =>
    intro st
    unfold deleteElected
    obtain ⟨evs, htr, hids⟩ := triggerBackupDelete_trace env st b.ID
    generalize triggerBackupDelete env st b.ID = r at htr ⊢
    obtain ⟨st1, err⟩ := r
    cases err with
    | some e =>
      refine ⟨evs, 1, htr, ?_, ?_⟩
      · simpa using hids
      · simp
    | none =>
      obtain ⟨evs2, k, h1, h2, h3⟩ := ih st1
      refine ⟨evs ++ evs2, k + 1, ?_, ?_, ?_⟩
      · simp only at htr ⊢
        rw [h1, htr, List.append_assoc]
      · unfold triggeredIDs at hids h2 ⊢
        rw [List.filterMap_append, hids, h2]
        simp
      · intro hp
        simp only at hp ⊢
        rw [h3 hp]
        simp

/-- C11: when `RunRetentionTask` has loaded the spec `bs`, the backups it
elects, which its delete loop hands to `triggerBackupDelete` in order, are the
concatenation over the tags `''`, minutely, hourly, daily, weekly, monthly,
yearly of the answers of `getExclusiveTagAvailableMaterializedBackups(name,
tag, count, 30)` on the table left by `tagAllBackups`, `count` being the
integer parsed from the COUNT part of the tag's retention string (`0` for
`''`).  The run ends with the delete loop on that list and the deferred
unlock; the ids passed to `triggerBackupDelete` are a starting part of the ids
of the list, all of them unless the loop panics.  A tag whose COUNT does not
parse or whose query fails adds nothing to the list it is given. -/
theorem RunRetentionTask_elects_concatenation (env : Env) (st : State) (backupName : String)
    (bs : BackupSpec) (hdb : env.dbErr (st.tick + 1) = none)
    (hfind : st.specs.find? (fun b => b.Name = backupName) = some bs) :
    RunRetentionTask env st backupName =
      (deleteElected env (electBackups env (retentionTagged env st backupName) backupName bs).1
        (electedConcat env backupName (retentionTagged env st backupName).backups
          (retentionTagged env st backupName).tick (electionTags bs))).1.log
        (.mutexUnlock (retentionLock st backupName).2) true ∧
    (∃ k,
      triggeredIDs (eventsSince
          (electBackups env (retentionTagged env st backupName) backupName bs).1
          (RunRetentionTask env st backupName)) =
        ((electedConcat env backupName (retentionTagged env st backupName).backups
          (retentionTagged env st backupName).tick (electionTags bs)).map
            (fun mb => mb.ID)).take k ∧
      (RunRetentionTaskPanics env st backupName = false →
        k = (electedConcat env backupName (retentionTagged env st backupName).backups
          (retentionTagged env st backupName).tick (electionTags bs)).length)) ∧
    (∀ s : State, (electBackups env s backupName bs).2 =
      electedConcat env backupName s.backups s.tick (electionTags bs)) ∧
    (∀ (s : State) (tag count : String) (acc : List MaterializedBackup),
      (appendElectedForTag env s backupName tag count acc).2 =
        acc ++ tagContribution env backupName s.backups s.tick tag count ∧
      (appendElectedForTag env s backupName tag count acc).1.backups = s.backups ∧
      ((Atoi count = none ∨ env.dbErr s.tick ≠ none) →
        (appendElectedForTag env s backupName tag count acc).2 = acc)) := by
  have htick : (retentionLocked st backupName).tick = st.tick + 1 := by
    rw [retentionLocked_eq, State.log_tick]
    simp only [State.tick, (retentionLock_fst st backupName).2.2]
  have hspecs : (retentionLocked st backupName).specs = st.specs := by
    rw [retentionLocked_eq, State.log_specs, (retentionLock_fst st backupName).1]
  have hlocked := RunRetentionTaskLocked_eq env (retentionLocked st backupName) backupName bs
    (by rw [htick]; exact hdb) (by rw [hspecs]; exact hfind)
  rw [electBackups_snd] at hlocked
  have hrun : RunRetentionTask env st backupName =
      (deleteElected env (electBackups env (retentionTagged env st backupName) backupName bs).1
        (electedConcat env backupName (retentionTagged env st backupName).backups
          (retentionTagged env st backupName).tick (electionTags bs))).1.log
        (.mutexUnlock (retentionLock st backupName).2) true := by
    rw [RunRetentionTask_eq, hlocked]
    rfl
  refine ⟨hrun, ?_, fun s => electBackups_snd env s backupName bs, ?_⟩
  · obtain ⟨evs, k, h1, h2, h3⟩ := deleteElected_trace env
      (electedConcat env backupName (retentionTagged env st backupName).backups
        (retentionTagged env st backupName).tick (electionTags bs))
      (electBackups env (retentionTagged env st backupName) backupName bs).1
    refine ⟨k, ?_, ?_⟩
    · rw [eventsSince_of_append _ _ (evs ++ [⟨.mutexUnlock (retentionLock st backupName).2, true⟩])
        (by rw [hrun, State.log_trace, h1, List.append_assoc])]
      unfold triggeredIDs at h2 ⊢
      rw [List.filterMap_append, h2]
      simp
    · intro hp
      apply h3
      unfold RunRetentionTaskPanics at hp
      rw [hlocked] at hp
      exact hp
  · intro s tag count acc
    refine ⟨appendElectedForTag_snd _ _ _ _ _ _, (appendElectedForTag_fst _ _ _ _ _ _).1, ?_⟩
    intro h
    rw [appendElectedForTag_snd]
    unfold tagContribution
    rcases h with h | h
    · simp [h]
    · cases hA : Atoi count with
      | none => simp
      | some ret =>
        cases hd : env.dbErr s.tick with
        | none => exact absurd hd h
        | some e => simp

/-- C11 at a concrete input: spec `db1` with the daily COUNT `x`, one COMPLETED
backup `b1` without tags; the loading of the newest backup inside
`tagAllBackups` (call 4) fails, so the tags stay as they are, and the hourly
query (call 8) fails.  No daily query is made, the elected list is `b1`, from
the untagged sweep, and `b1` goes to `triggerBackupDelete`. -/
theorem RunRetentionTask_elects_concatenation_witness :
    RunRetentionTask (exampleEnv dbErrAt4And8 (wfOf "" "" none none) none) stateBadDaily "db1" =
      (deleteElected (exampleEnv dbErrAt4And8 (wfOf "" "" none none) none)
        (electBackups (exampleEnv dbErrAt4And8 (wfOf "" "" none none) none)
          (retentionTagged (exampleEnv dbErrAt4And8 (wfOf "" "" none none) none) stateBadDaily
            "db1") "db1" specBadDaily).1
        (electedConcat (exampleEnv dbErrAt4And8 (wfOf "" "" none none) none) "db1"
          (retentionTagged (exampleEnv dbErrAt4And8 (wfOf "" "" none none) none) stateBadDaily
            "db1").backups
          (retentionTagged (exampleEnv dbErrAt4And8 (wfOf "" "" none none) none) stateBadDaily
            "db1").tick (electionTags specBadDaily))).1.log
        (.mutexUnlock (retentionLock stateBadDaily "db1").2) true ∧
    (electedConcat (exampleEnv dbErrAt4And8 (wfOf "" "" none none) none) "db1"
        (retentionTagged (exampleEnv dbErrAt4And8 (wfOf "" "" none none) none) stateBadDaily
          "db1").backups
        (retentionTagged (exampleEnv dbErrAt4And8 (wfOf "" "" none none) none) stateBadDaily
          "db1").tick (electionTags specBadDaily)).map (fun mb => mb.ID) = ["b1"] ∧
    (RunRetentionTask (exampleEnv dbErrAt4And8 (wfOf "" "" none none) none) stateBadDaily
        "db1").trace.map (fun e => e.call) =
      [Call.mutexLock 1, Call.getBackupSpec "db1", Call.getBackupSpec "db1", Call.dbBegin,
       Call.getMaterializedBackups "db1" 1 "" "COMPLETED" false, Call.txRollback,
       Call.getExclusiveTagAvailableMaterializedBackups "db1" "" 0 30,
       Call.getExclusiveTagAvailableMaterializedBackups "db1" "minutely" 0 30,
       Call.getExclusiveTagAvailableMaterializedBackups "db1" "hourly" 0 30,
       Call.getExclusiveTagAvailableMaterializedBackups "db1" "weekly" 4 30,
       Call.getExclusiveTagAvailableMaterializedBackups "db1" "monthly" 3 30,
       Call.getExclusiveTagAvailableMaterializedBackups "db1" "yearly" 2 30,
       Call.getMaterializedBackup "b1", Call.getBackupSpec "db1",
       Call.launchRemoveBackupWorkflow "db1" (some "data-b1") 60 none,
       Call.setStatusMaterializedBackup "b1" "deleting" (some "z"),
       Call.mutexUnlock 1] :=
  ⟨(RunRetentionTask_elects_concatenation (exampleEnv dbErrAt4And8 (wfOf "" "" none none) none)
      stateBadDaily "db1" specBadDaily (by decide) (by decide)).1,
    by decide, by decide⟩

/-- The delete loop at a concrete input: two COMPLETED backups `b1`, `b2`
without tags are elected by the untagged sweep; `getMaterializedBackup("b1")`
(call 12) fails, `triggerBackupDelete` returns an error, the counter call of
line 87 panics, and `b2` is not passed to `triggerBackupDelete`. -/
theorem RunRetentionTask_delete_loop_panics :
    RunRetentionTaskPanics (exampleEnv dbErrAt4And12 (wfOf "" "" none none) none)
      stateTwoUntagged "db1" = true ∧
    (RunRetentionTask (exampleEnv dbErrAt4And12 (wfOf "" "" none none) none)
      stateTwoUntagged "db1").trace.map (fun e => e.call) =
      [Call.mutexLock 1, Call.getBackupSpec "db1", Call.getBackupSpec "db1", Call.dbBegin,
       Call.getMaterializedBackups "db1" 1 "" "COMPLETED" false, Call.txRollback,
       Call.getExclusiveTagAvailableMaterializedBackups "db1" "" 0 30,
       Call.getExclusiveTagAvailableMaterializedBackups "db1" "minutely" 0 30,
       Call.getExclusiveTagAvailableMaterializedBackups "db1" "hourly" 0 30,
       Call.getExclusiveTagAvailableMaterializedBackups "db1" "weekly" 4 30,
       Call.getExclusiveTagAvailableMaterializedBackups "db1" "monthly" 3 30,
       Call.getExclusiveTagAvailableMaterializedBackups "db1" "yearly" 2 30,
       Call.getMaterializedBackup "b1",
       Call.mutexUnlock 1] := by
  decide

/-! ## `prepareTimers` -/

theorem find?_of_mem_nodup (specs : List BackupSpec)
    (hnames : (specs.map (fun bs => bs.Name)).Nodup) (bs : BackupSpec) (hbs : bs ∈ specs) :
    specs.find? (fun b => b.Name = bs.Name) = some bs := by
  cases hf : specs.find? (fun b => b.Name = bs.Name) with
  | none =>
    have := List.find?_eq_none.1 hf bs hbs
    simp at this
  | some b =>
    have hb : b ∈ specs := List.mem_of_find?_eq_some hf
    have hn : b.Name = bs.Name := by simpa using List.find?_some hf
    rw [List.inj_on_of_nodup_map hnames hb hbs hn]

theorem mapSet_absent (m : List (String × CronTimer)) (k : String) (v : CronTimer)
    (h : k ∉ m.map Prod.fst) : mapSet m k v = m ++ [(k, v)] := by
  unfold mapSet
  have : m.any (fun e => decide (e.1 = k)) = false := by
    rw [List.any_eq_false]
    intro e he hk
    exact h (List.mem_map.2 ⟨e, he, by simpa using hk⟩)
  simp [this]

theorem isActiveRoutine_iff (specs : List BackupSpec) (k : String) :
    isActiveRoutine (specs.filter (fun bs => bs.Enabled = 1)) k = true ↔ k ∈ enabledKeys specs := by
  unfold isActiveRoutine enabledKeys
  simp only [List.any_eq_true, decide_eq_true_eq, List.mem_map]
  constructor
  · rintro ⟨bs, hbs, rfl⟩; exact ⟨bs, hbs, rfl⟩
  · rintro ⟨bs, hbs, rfl⟩; exact ⟨bs, hbs, rfl⟩

/-- The first loop of `prepareTimers`, when it ends without error: the map
grows at its end by one new, started timer for every key that was missing. -/
theorem prepareTimersLaunch_spec (env : Env) (specs : List BackupSpec)
    (hnames : (specs.map (fun bs => bs.Name)).Nodup) (l : List BackupSpec) :
    ∀ sch : Scheduler, sch.st.specs = specs → (∀ bs ∈ l, bs ∈ specs) →
      (prepareTimersLaunch env sch l).2 = none →
      ∃ news : List (String × CronTimer),
        (prepareTimersLaunch env sch l).1.scheduledRoutineHashes =
          sch.scheduledRoutineHashes ++ news ∧
        (prepareTimersLaunch env sch l).1.started = sch.started ++ news.map Prod.snd ∧
        (prepareTimersLaunch env sch l).1.stopped = sch.stopped ∧
        (∀ e ∈ news, e.1 ∉ sch.scheduledRoutineHashes.map Prod.fst ∧
          ∃ bs ∈ l, e.1 = routineHash bs.Name bs.cron ∧ e.2.backupName = bs.Name ∧
            e.2.cronString = bs.cron) ∧
        (∀ bs ∈ l, routineHash bs.Name bs.cron ∈
          (sch.scheduledRoutineHashes ++ news).map Prod.fst) := by
  induction l with
  | nil =>
    intro sch _ _ _
    exact ⟨[], by simp [prepareTimersLaunch]⟩
  | cons bs rest ih =>
    intro sch hspecs hmem herr
    have hrest : ∀ b ∈ rest, b ∈ specs := fun b hb => hmem b (List.mem_cons_of_mem _ hb)
    unfold prepareTimersLaunch at herr ⊢
    by_cases hany : sch.scheduledRoutineHashes.any (fun e => routineHash bs.Name bs.cron = e.1) = true
    · simp only [hany, if_true] at herr ⊢
      obtain ⟨news, h1, h2, h3, h4, h5⟩ := ih sch hspecs hrest herr
      refine ⟨news, h1, h2, h3, ?_, ?_⟩
      · intro e he
        obtain ⟨ha, b, hb, hb'⟩ := h4 e he
        exact ⟨ha, b, List.mem_cons_of_mem _ hb, hb'⟩
      · intro b hb
        rcases List.mem_cons.1 hb with rfl | hb
        · simp only [List.any_eq_true, decide_eq_true_eq] at hany
          obtain ⟨e, he, hk⟩ := hany
          rw [List.map_append, List.mem_append]
          exact Or.inl (List.mem_map.2 ⟨e, he, hk.symm⟩)
        · exact h5 b hb
    · have hkey : routineHash bs.Name bs.cron ∉ sch.scheduledRoutineHashes.map Prod.fst := by
        intro hk
        apply hany
        obtain ⟨e, he, hk⟩ := List.mem_map.1 hk
        simp only [List.any_eq_true, decide_eq_true_eq]
        exact ⟨e, he, hk.symm⟩
      simp only [hany, Bool.false_eq_true, if_false] at herr ⊢
      unfold launchBackupRoutine at herr ⊢
      rcases getBackupSpec_cases env sch.st bs.Name with ⟨bs1, hf, hg⟩ | ⟨e, hg⟩
      · have hbs1 : bs1 = bs := by
          rw [hspecs, find?_of_mem_nodup specs hnames bs (hmem bs (List.mem_cons_self _ _))] at hf
          exact (Option.some.inj hf).symm
        subst hbs1
        rw [hg] at herr ⊢
        simp only [mapSet_absent _ _ _ hkey] at herr ⊢
        obtain ⟨news, h1, h2, h3, h4, h5⟩ := ih _ (by simpa using hspecs) hrest herr
        refine ⟨(routineHash bs1.Name bs1.cron,
          { id := sch.started.length, backupName := bs1.Name, cronString := bs1.cron }) :: news,
          ?_, ?_, ?_, ?_, ?_⟩
        · rw [h1]; simp
        · rw [h2]; simp
        · rw [h3]
        · intro e he
          rcases List.mem_cons.1 he with rfl | he
          · exact ⟨hkey, bs1, List.mem_cons_self _ _, rfl, rfl, rfl⟩
          · obtain ⟨ha, b, hb, hb'⟩ := h4 e he
            refine ⟨fun hk => ha ?_, b, List.mem_cons_of_mem _ hb, hb'⟩
            rw [List.map_append, List.mem_append]
            exact Or.inl hk
        · intro b hb
          rcases List.mem_cons.1 hb with rfl | hb
          · simp
          · have := h5 b hb
            simpa using this
      · rw [hg] at herr
        simp at herr

/-- C12: on a table of backup specs with distinct names (`name` is the primary
key of `backup_spec`) and non-nil cron strings, when `prepareTimers` returns
without error the keys of the map are exactly the routine keys of the enabled
specs.  The entries whose key is the key of an enabled spec stay in the map as
they were; the other entries are removed and their timers stopped; and the
map gets one new entry, with a new started timer, exactly for the keys of
enabled specs that were missing. -/
theorem prepareTimers_reconciles (env : Env) (sch : Scheduler)
    (hnames : (sch.st.specs.map (fun bs => bs.Name)).Nodup)
    (_hcron : ∀ bs ∈ sch.st.specs, bs.BackupCronString ≠ none)
    (herr : (prepareTimers env sch).2 = none) :
    (∀ k, k ∈ (prepareTimers env sch).1.scheduledRoutineHashes.map Prod.fst ↔
      k ∈ enabledKeys sch.st.specs) ∧
    ∃ news : List (String × CronTimer),
      (prepareTimers env sch).1.scheduledRoutineHashes =
        sch.scheduledRoutineHashes.filter (fun e => decide (e.1 ∈ enabledKeys sch.st.specs)) ++
          news ∧
      (prepareTimers env sch).1.started = sch.started ++ news.map Prod.snd ∧
      (prepareTimers env sch).1.stopped = sch.stopped ++
        (sch.scheduledRoutineHashes.filter
          (fun e => decide (e.1 ∉ enabledKeys sch.st.specs))).map Prod.snd ∧
      (∀ e ∈ news, e.1 ∉ sch.scheduledRoutineHashes.map Prod.fst ∧
        ∃ bs ∈ sch.st.specs, bs.Enabled = 1 ∧ e.1 = routineHash bs.Name bs.cron ∧
          e.2.backupName = bs.Name ∧ e.2.cronString = bs.cron) ∧
      (∀ bs ∈ sch.st.specs, bs.Enabled = 1 →
        routineHash bs.Name bs.cron ∉ sch.scheduledRoutineHashes.map Prod.fst →
        routineHash bs.Name bs.cron ∈ news.map Prod.fst) := by
  unfold prepareTimers listBackupSpecs at herr ⊢
  cases hdb : env.dbErr sch.st.tick with
  | some e => simp [hdb] at herr
  | none =>
    simp only [hdb] at herr ⊢
    have hmem : ∀ bs ∈ sch.st.specs.filter (fun bs => bs.Enabled = 1), bs ∈ sch.st.specs :=
      fun bs hbs => (List.mem_filter.1 hbs).1
    have hloop := prepareTimersLaunch_spec env sch.st.specs hnames
      (sch.st.specs.filter (fun bs => bs.Enabled = 1))
      { sch with st := sch.st.log (Call.listBackupSpecs (some 1)) true } rfl hmem
    generalize prepareTimersLaunch env
      { sch with st := sch.st.log (Call.listBackupSpecs (some 1)) true }
      (sch.st.specs.filter (fun bs => bs.Enabled = 1)) = r at herr hloop ⊢
    obtain ⟨sch1, err1⟩ := r
    cases err1 with
    | some e => simp at herr
    | none =>
      obtain ⟨news, h1, h2, h3, h4, h5⟩ := hloop rfl
      simp only at h1 h2 h3 h4 h5 ⊢
      have hact : ∀ e : String × CronTimer,
          isActiveRoutine (sch.st.specs.filter (fun bs => bs.Enabled = 1)) e.1 =
            decide (e.1 ∈ enabledKeys sch.st.specs) := by
        intro e
        rw [Bool.eq_iff_iff, isActiveRoutine_iff]
        simp
      have hnewsActive : ∀ e ∈ news, e.1 ∈ enabledKeys sch.st.specs := by
        intro e he
        obtain ⟨_, bs, hbs, hk, _⟩ := h4 e he
        rw [hk]
        exact List.mem_map.2 ⟨bs, hbs, rfl⟩
      have hfilter1 : news.filter (fun e => decide (e.1 ∈ enabledKeys sch.st.specs)) = news :=
        List.filter_eq_self.2 (fun e he => by simpa using hnewsActive e he)
      have hfilter2 : news.filter (fun e => !decide (e.1 ∈ enabledKeys sch.st.specs)) = [] :=
        List.filter_eq_nil_iff.2 (fun e he => by simpa using hnewsActive e he)
      have hfinal : sch1.scheduledRoutineHashes.filter
          (fun e => isActiveRoutine (sch.st.specs.filter (fun bs => bs.Enabled = 1)) e.1) =
          sch.scheduledRoutineHashes.filter (fun e => decide (e.1 ∈ enabledKeys sch.st.specs)) ++
            news := by
        simp only [hact]
        rw [h1, List.filter_append, hfilter1]
      refine ⟨?_, news, hfinal, h2, ?_, ?_, ?_⟩
      · intro k
        rw [hfinal, List.map_append, List.mem_append]
        constructor
        · rintro (hk | hk)
          · obtain ⟨e, he, rfl⟩ := List.mem_map.1 hk
            simpa using (List.mem_filter.1 he).2
          · obtain ⟨e, he, rfl⟩ := List.mem_map.1 hk
            exact hnewsActive e he
        · intro hk
          obtain ⟨bs, hbs, rfl⟩ := List.mem_map.1 hk
          have := h5 bs hbs
          rw [List.map_append, List.mem_append] at this
          rcases this with h | h
          · obtain ⟨e, he, hek⟩ := List.mem_map.1 h
            refine Or.inl (List.mem_map.2 ⟨e, List.mem_filter.2 ⟨he, ?_⟩, hek⟩)
            simp only [decide_eq_true_eq]
            rw [hek]
            exact hk
          · exact Or.inr h
      · simp only [hact]
        rw [h3, h1, List.filter_append, List.map_append]
        simp only [decide_not, hfilter2, List.map_nil, List.append_nil]
      · intro e he
        obtain ⟨ha, bs, hbs, hb'⟩ := h4 e he
        obtain ⟨hin, hen⟩ := List.mem_filter.1 hbs
        exact ⟨ha, bs, hin, by simpa using hen, hb'⟩
      · intro bs hbs hen hk
        have := h5 bs (List.mem_filter.2 ⟨hbs, by simpa using hen⟩)
        rw [List.map_append, List.mem_append] at this
        rcases this with h | h
        · exact absurd h hk
        · exact h

/-- C12 at a concrete input: `db2` keeps its timer, the timers under the old
key of `db1` and under the key of the disabled `db3` are stopped and removed,
and `db1` gets a new timer under its new key. -/
theorem prepareTimers_reconciles_witness :
    (prepareTimers (exampleEnv noDbErr (wfOf "" "" none none) none) exampleScheduler).2 = none ∧
    (∀ k, k ∈ (prepareTimers (exampleEnv noDbErr (wfOf "" "" none none) none)
        exampleScheduler).1.scheduledRoutineHashes.map Prod.fst ↔
      k ∈ enabledKeys exampleScheduler.st.specs) ∧
    (prepareTimers (exampleEnv noDbErr (wfOf "" "" none none) none)
        exampleScheduler).1.scheduledRoutineHashes =
      [("db2|@hourly)", { id := 0, backupName := "db2", cronString := "@hourly" }),
       ("db1|0 * * * * *)", { id := 3, backupName := "db1", cronString := "0 * * * * *" })] ∧
    (prepareTimers (exampleEnv noDbErr (wfOf "" "" none none) none)
        exampleScheduler).1.stopped =
      [{ id := 1, backupName := "db1", cronString := "@daily" },
       { id := 2, backupName := "db3", cronString := "@daily" }] :=
  ⟨by decide,
    (prepareTimers_reconciles (exampleEnv noDbErr (wfOf "" "" none none) none) exampleScheduler
      (by decide) (by decide) (by decide)).1,
    by decide, by decide⟩

/-! ## The timer function of `launchBackupRoutine` -/

/-- C13 as stated fails: spec `db1` is enabled with the window from 100 to
500.  At `now = 500` (equal to `toDate`) and at `now = 100` (equal to
`fromDate`), both inside the closed interval, the fire makes the calls of the
two checks and of the reload of the spec and no other: neither
`triggerNewBackup` nor `RunRetentionTask` is invoked. -/
theorem backupTimerFire_inactive_at_bounds :
    ((100 : Int) ≤ 500 ∧ (500 : Int) ≤ 500) ∧
    (backupTimerFire (exampleEnv noDbErr (wfOf "" "" none none) none) stateWindow "db1" 500
        500).1.trace =
      [⟨Call.getBackupSpec "db1", true⟩,
       ⟨Call.getMaterializedBackups "db1" 20 "" "deleting" false, true⟩,
       ⟨Call.getBackupSpec "db1", true⟩] ∧
    (backupTimerFire (exampleEnv noDbErr (wfOf "" "" none none) none) stateWindow "db1" 500
        500).2 = ["checkBackupWorkflow", "checkWorkflowBackupRemove"] ∧
    ((100 : Int) ≤ 100 ∧ (100 : Int) ≤ 500) ∧
    (backupTimerFire (exampleEnv noDbErr (wfOf "" "" none none) none) stateWindow "db1" 100
        100).1.trace =
      [⟨Call.getBackupSpec "db1", true⟩,
       ⟨Call.getMaterializedBackups "db1" 20 "" "deleting" false, true⟩,
       ⟨Call.getBackupSpec "db1", true⟩] ∧
    (backupTimerFire (exampleEnv noDbErr (wfOf "" "" none none) none) stateWindow "db1" 100
        100).2 = ["checkBackupWorkflow", "checkWorkflowBackupRemove"] := by
  decide

theorem RunRetentionTask_ends_with_unlock (env : Env) (st : State) (backupName : String) :
    ∃ s m, RunRetentionTask env st backupName = State.log s (.mutexUnlock m) true := by
  unfold RunRetentionTask
  exact ⟨_, _, rfl⟩

/-- C13 (amended): on a fire of the timer, when the spec reloaded after the two
checks is `bs` and `bs` is enabled, the fire goes on with `triggerNewBackup`
and `RunRetentionTask` if and only if the time read for the first comparison
is strictly before `toDate` and the time read for the second is strictly after
`fromDate`, a missing date putting no bound.  Inside that window the state
after the fire is the state after `triggerNewBackup` and then
`RunRetentionTask`, and its last call is the deferred unlock of
`RunRetentionTask`; outside it the fire ends with the reload of the spec and
makes no further call. -/
theorem backupTimerFire_active_iff (env : Env) (st : State) (backupName : String)
    (now1 now2 : Int) (bs : BackupSpec)
    (hspec : (getBackupSpec env
      (checkWorkflowBackupRemove env (checkBackupWorkflow env st backupName) backupName)
      backupName).2 = (bs, none))
    (hen : bs.Enabled ≠ 0) :
    ("triggerNewBackup" ∈ (backupTimerFire env st backupName now1 now2).2 ↔
      (∀ t, bs.ToDate = some t → now1 < t) ∧ (∀ f, bs.FromDate = some f → f < now2)) ∧
    ("RunRetentionTask" ∈ (backupTimerFire env st backupName now1 now2).2 ↔
      (∀ t, bs.ToDate = some t → now1 < t) ∧ (∀ f, bs.FromDate = some f → f < now2)) ∧
    (((∀ t, bs.ToDate = some t → now1 < t) ∧ (∀ f, bs.FromDate = some f → f < now2)) →
      (backupTimerFire env st backupName now1 now2).1 =
        RunRetentionTask env (triggerNewBackup env (getBackupSpec env
          (checkWorkflowBackupRemove env (checkBackupWorkflow env st backupName) backupName)
          backupName).1 backupName).1 backupName) ∧
    (¬ ((∀ t, bs.ToDate = some t → now1 < t) ∧ (∀ f, bs.FromDate = some f → f < now2)) →
      (backupTimerFire env st backupName now1 now2).1 =
        (checkWorkflowBackupRemove env (checkBackupWorkflow env st backupName)
          backupName).log (.getBackupSpec backupName) true) ∧
    ((∃ m, (backupTimerFire env st backupName now1 now2).1.trace.getLast? =
        some ⟨Call.mutexUnlock m, true⟩) ↔
      (∀ t, bs.ToDate = some t → now1 < t) ∧ (∀ f, bs.FromDate = some f → f < now2)) := by
  have hfst := getBackupSpec_fst env
    (checkWorkflowBackupRemove env (checkBackupWorkflow env st backupName) backupName) backupName
  unfold backupTimerFire
  generalize getBackupSpec env
    (checkWorkflowBackupRemove env (checkBackupWorkflow env st backupName) backupName)
    backupName = g at hspec hfst ⊢
  obtain ⟨st3, bs', err⟩ := g
  simp only [Prod.mk.injEq] at hspec
  obtain ⟨rfl, rfl⟩ := hspec
  simp only [Option.isNone_none] at hfst
  subst hfst
  obtain ⟨s, m, hs⟩ := RunRetentionTask_ends_with_unlock env (triggerNewBackup env
    ((checkWorkflowBackupRemove env (checkBackupWorkflow env st backupName) backupName).log
      (Call.getBackupSpec backupName) true) backupName).1 backupName
  simp only [hen, if_false]
  cases hto : bs'.ToDate with
  | none =>
    cases hfrom : bs'.FromDate with
    | none => simp [hs]
    | some f => by_cases h : f < now2 <;> simp [h, hs]
  | some t =>
    cases hfrom : bs'.FromDate with
    | none => by_cases h : now1 < t <;> simp [h, hs]
    | some f => by_cases h : now1 < t <;> by_cases h' : f < now2 <;> simp [h, h', hs]

/-- C13 (amended) at a concrete input: at `now = 300`, strictly inside the
window from 100 to 500, the fire goes on with `triggerNewBackup`, which
launches the create workflow, and with `RunRetentionTask`. -/
theorem backupTimerFire_active_iff_witness :
    (backupTimerFire (exampleEnv noDbErr (wfOf "" "" none none) none) stateWindow "db1" 300
        300).1 =
      RunRetentionTask (exampleEnv noDbErr (wfOf "" "" none none) none)
        (triggerNewBackup (exampleEnv noDbErr (wfOf "" "" none none) none)
          (getBackupSpec (exampleEnv noDbErr (wfOf "" "" none none) none)
            (checkWorkflowBackupRemove (exampleEnv noDbErr (wfOf "" "" none none) none)
              (checkBackupWorkflow (exampleEnv noDbErr (wfOf "" "" none none) none) stateWindow
                "db1") "db1") "db1").1 "db1").1 "db1" ∧
    (backupTimerFire (exampleEnv noDbErr (wfOf "" "" none none) none) stateWindow "db1" 300
        300).1.trace.map (fun e => e.call) =
      [Call.getBackupSpec "db1",
       Call.getMaterializedBackups "db1" 20 "" "deleting" false,
       Call.getBackupSpec "db1",
       Call.getBackupSpec "db1",
       Call.launchCreateBackupWorkflow "db1",
       Call.updateBackupSpecRunningCreateWorkflowID "db1" (some "w2"),
       Call.mutexLock 1,
       Call.getBackupSpec "db1",
       Call.getBackupSpec "db1",
       Call.dbBegin,
       Call.getMaterializedBackups "db1" 1 "" "COMPLETED" false,
       Call.txRollback,
       Call.getExclusiveTagAvailableMaterializedBackups "db1" "" 0 30,
       Call.getExclusiveTagAvailableMaterializedBackups "db1" "minutely" 0 30,
       Call.getExclusiveTagAvailableMaterializedBackups "db1" "hourly" 0 30,
       Call.getExclusiveTagAvailableMaterializedBackups "db1" "daily" 4 30,
       Call.getExclusiveTagAvailableMaterializedBackups "db1" "weekly" 4 30,
       Call.getExclusiveTagAvailableMaterializedBackups "db1" "monthly" 3 30,
       Call.getExclusiveTagAvailableMaterializedBackups "db1" "yearly" 2 30,
       Call.mutexUnlock 1] ∧
    (backupTimerFire (exampleEnv noDbErr (wfOf "" "" none none) none) stateWindow "db1" 300
        300).2 =
      ["checkBackupWorkflow", "checkWorkflowBackupRemove", "triggerNewBackup",
        "RunRetentionTask"] :=
  ⟨(backupTimerFire_active_iff (exampleEnv noDbErr (wfOf "" "" none none) none) stateWindow
      "db1" 300 300 specWindow (by decide) (by decide)).2.2.1
      ⟨fun t ht => by cases ht; decide, fun f hf => by cases hf; decide⟩,
    by decide, by decide⟩

/-! ## The retention lock -/

/-- C14 at a failing input: spec `db1` whose create workflow `w1` is COMPLETED
with data.  `checkBackupWorkflow("db1")` locks and unlocks mutex 0, the global
`avoidRetentionLock`, around the clearing, the creation of the materialized
backup and the tagging.  `RunRetentionTask("db1")` locks and unlocks mutex 1,
the mutex `retentionLock("db1")` (the same on a second call).  The two
functions do not take the same mutex. -/
theorem checkBackupWorkflow_locks_other_mutex :
    (checkBackupWorkflow (exampleEnv noDbErr (wfOf "w1" "COMPLETED" (some "d1") (some 10)) none)
        (stateOf []) "db1").trace.map (fun e => e.call) =
      [Call.getBackupSpec "db1", Call.getWorkflowInstance "w1",
       Call.mutexLock avoidRetentionLock,
       Call.updateBackupSpecRunningCreateWorkflowID "db1" none,
       Call.createMaterializedBackup "w1" "db1" (some "d1") "COMPLETED" 100 160 (some 10),
       Call.getBackupSpec "db1", Call.dbBegin,
       Call.getMaterializedBackups "db1" 1 "" "COMPLETED" false,
       Call.clearTagsAndReferenceMaterializedBackup,
       Call.markReferencesMinutelyMaterializedBackup "db1" "L",
       Call.markTagMaterializedBackup "hourly" "minutely" "%Y-%m-%dT%H:0:0.000" "%M" "db1" "L",
       Call.markTagMaterializedBackup "daily" "hourly" "%Y-%m-%w-%dT0:0:0.000" "%H" "db1" "L",
       Call.markTagMaterializedBackup "weekly" "daily" "%Y-%m-%W-0T0:0:0.000" "%w" "db1" "L",
       Call.markTagMaterializedBackup "db1" "monthly" "daily" "%Y-%m-0T0:0:0.000" "%d" "31",
       Call.markTagMaterializedBackup "yearly" "monthly" "%Y-0-0T0:0:0.000" "%m" "db1" "L",
       Call.setAllTagsMaterializedBackup "w1", Call.txCommit,
       Call.mutexUnlock avoidRetentionLock] ∧
    lockCalls (RunRetentionTask (exampleEnv noDbErr (wfOf "w1" "COMPLETED" (some "d1") (some 10))
        none) (stateOf []) "db1").trace =
      [Call.mutexLock 1, Call.mutexUnlock 1] ∧
    (retentionLock (stateOf []) "db1").2 = 1 ∧
    (retentionLock (retentionLock (stateOf []) "db1").1 "db1").2 = 1 ∧
    avoidRetentionLock ≠ (retentionLock (stateOf []) "db1").2 ∧
    lockCalls (checkBackupWorkflow
        (exampleEnv noDbErr (wfOf "w1" "COMPLETED" (some "d1") (some 10)) none)
        { specs := [specDb1], backups := [], retentionLocks := [("db1", 1)], trace := [] }
        "db1").trace =
      [Call.mutexLock 0, Call.mutexUnlock 0] := by
  decide

end Backtor
